import Mathlib

/-!
# Goldbox engine: tile map, motion controller and the DDA of the raycaster

A shallow embedding of `src/engine.c` (tile decoding, `load_map`,
`initialize_worldMap`, the `initiate_*` requests, `update_movement`,
`update_rotation`, the atlas addressing and the DDA of `raycaster`), followed
by the theorems about it.

Modelling conventions
* `uint8_t` values are natural numbers; a byte is a natural number below 256.
* `int` values are integers (`Int`); the grid coordinates that occur stay far
  from the limits of a 32-bit `int`.  The conversion of a `double` to `int` in
  `line_height` is defined only for a value in the range of a 32-bit `int`.
* `Uint32` tick counts are natural numbers below `2 ^ 32`; the unsigned
  difference is taken modulo `2 ^ 32`.
* `double` values are exact rationals (`ℚ`): the rounding of arithmetic on
  them is not modelled.  `M_PI` is the `double` that the decimal literal of
  the source denotes.
* The global variables of the motion controller are the fields of `State`;
  the global `worldMap` is a value of type `WorldMap`.
* The ray direction is an input of the DDA.  Where `cos(dirAngle)` and
  `sin(dirAngle)` are needed they are the real cosine and sine of the rational
  angle.
* Reading `worldMap[x][y]` with an index outside the declared array bounds has
  no defined result: `worldMapAt` returns `none` there, and a request that
  performs such a read returns `none`.  The runs of `run_any` go on after such
  a read, with an arbitrary cell as its result.
-/

namespace Goldbox

/-! ## Constants -/

/-- Source: `#define MAP_WIDTH 30` -/
abbrev MAP_WIDTH : Nat := 30
/-- Source: `#define MAP_HEIGHT 24` -/
abbrev MAP_HEIGHT : Nat := 24
/-- Source: `#define MOVE_DURATION 200` -/
abbrev MOVE_DURATION : Nat := 200
/-- Source: `#define ROTATE_DURATION 200` -/
abbrev ROTATE_DURATION : Nat := 200
/-- Source: `#define M_PI 3.14159265358979323846`.  The constant is used as a
`double`: its value is the binary64 number nearest to the decimal,
`884279719003555 / 2 ^ 48` (bit pattern `0x400921FB54442D18`). -/
def M_PI : ℚ := 884279719003555 / 2 ^ 48
/-- Source: `#define ATLAS_COLUMNS 8` -/
abbrev ATLAS_COLUMNS : Nat := 8
/-- Source: `#define TILE_SIZE 32` -/
abbrev TILE_SIZE : Nat := 32

/-- Source: `#define TILE_TYPE_MASK 0xC0` (bits 7-6) -/
abbrev TILE_TYPE_MASK : Nat := 0xC0
/-- Source: `#define TILE_TYPE_FLOOR 0x00` -/
abbrev TILE_TYPE_FLOOR : Nat := 0x00
/-- Source: `#define TILE_TYPE_WALL 0x40` -/
abbrev TILE_TYPE_WALL : Nat := 0x40
/-- Source: `#define TILE_TYPE_HALF_FLOOR 0x80` -/
abbrev TILE_TYPE_HALF_FLOOR : Nat := 0x80
/-- Source: `#define TILE_TYPE_HALF_WALL 0xC0` -/
abbrev TILE_TYPE_HALF_WALL : Nat := 0xC0
/-- Source: `#define TEXTURE_INDEX_MASK 0x3F` (bits 5-0) -/
abbrev TEXTURE_INDEX_MASK : Nat := 0x3F
/-- Source: `#define EVENT_TYPE_MASK 0xE0` (bits 7-5) -/
abbrev EVENT_TYPE_MASK : Nat := 0xE0
/-- Source: `#define EVENT_ID_MASK 0x1F` (bits 4-0) -/
abbrev EVENT_ID_MASK : Nat := 0x1F

/-! ## Cells and their decoding -/

/-- Source: `typedef struct { uint8_t tileByte; uint8_t eventByte; } Cell;` -/
structure Cell where
  tileByte : Nat
  eventByte : Nat
  deriving DecidableEq, Repr

/-- Source: `return (cell.tileByte & TILE_TYPE_MASK) >> 6;` (the value is at most 3, so
the conversion to `uint8_t` changes nothing). -/
def get_tile_type (cell : Cell) : Nat :=
  (cell.tileByte &&& TILE_TYPE_MASK) >>> 6

/-- Source: `return cell.tileByte & TEXTURE_INDEX_MASK;` -/
def get_texture_index (cell : Cell) : Nat :=
  cell.tileByte &&& TEXTURE_INDEX_MASK

/-- Source: `return (cell.eventByte & EVENT_TYPE_MASK) >> 5;` -/
def get_event_type (cell : Cell) : Nat :=
  (cell.eventByte &&& EVENT_TYPE_MASK) >>> 5

/-- Source: `return cell.eventByte & EVENT_ID_MASK;` -/
def get_event_id (cell : Cell) : Nat :=
  cell.eventByte &&& EVENT_ID_MASK

/-! ## The world map -/

/-- Source: `Cell worldMap[MAP_WIDTH][MAP_HEIGHT];`: `worldMap x y` is `worldMap[x][y]`.
Only the entries with `x < MAP_WIDTH` and `y < MAP_HEIGHT` belong to the
array. -/
abbrev WorldMap := Nat → Nat → Cell

/-- The assignment `worldMap[x][y] = c` (both bytes of the cell). -/
def setCell (worldMap : WorldMap) (x y : Nat) (c : Cell) : WorldMap :=
  fun i j => if i = x ∧ j = y then c else worldMap i j

/-- The read `worldMap[x][y]` for `int` indices: defined only inside the
declared bounds of the array. -/
def worldMapAt (worldMap : WorldMap) (x y : Int) : Option Cell :=
  if 0 ≤ x ∧ x < MAP_WIDTH ∧ 0 ≤ y ∧ y < MAP_HEIGHT then
    some (worldMap x.toNat y.toNat)
  else
    none

/-! ## `load_map` -/

/-- The inner loop `for (int x = 0; x < MAP_WIDTH; x++)` of `load_map` with `n`
iterations left (so `x = MAP_WIDTH - n`).  `file` is the unread rest of the
file.  The result is: did every `fread` deliver 2 bytes, the rest of the file,
the map. -/
def load_map_cols (y : Nat) : Nat → List Nat → WorldMap → Bool × List Nat × WorldMap
  | 0, file, worldMap => (true, file, worldMap)
  | n + 1, file, worldMap =>
    match file with
    | b0 :: b1 :: rest =>
      load_map_cols y n rest (setCell worldMap (MAP_WIDTH - (n + 1)) y ⟨b0, b1⟩)
    | _ => (false, file, worldMap)

/-- The outer loop `for (int y = 0; y < MAP_HEIGHT; y++)` of `load_map` with
`n` iterations left (so `y = MAP_HEIGHT - n`). -/
def load_map_rows : Nat → List Nat → WorldMap → Bool × List Nat × WorldMap
  | 0, file, worldMap => (true, file, worldMap)
  | n + 1, file, worldMap =>
    match load_map_cols (MAP_HEIGHT - (n + 1)) MAP_WIDTH file worldMap with
    | (true, rest, worldMap1) => load_map_rows n rest worldMap1
    | (false, rest, worldMap1) => (false, rest, worldMap1)

/-- Source: `int load_map(const char* filename)`.  The file is `none` when `fopen`
fails and `some bytes` otherwise.  The result is the returned `int` and the
global `worldMap` after the call. -/
def load_map (file : Option (List Nat)) (worldMap : WorldMap) : Int × WorldMap :=
  match file with
  | none => (0, worldMap)
  | some bytes =>
    match load_map_rows MAP_HEIGHT bytes worldMap with
    | (true, _, worldMap1) => (1, worldMap1)
    | (false, _, worldMap1) => (0, worldMap1)

/-! ## `initialize_worldMap` -/

/-- The inner loop `for (int y = 0; y < MAP_HEIGHT; y++)` of the default map,
`n` iterations left. -/
def default_fill_col (x : Nat) : Nat → WorldMap → WorldMap
  | 0, worldMap => worldMap
  | n + 1, worldMap =>
    let y := MAP_HEIGHT - (n + 1)
    if x = 0 ∨ y = 0 ∨ x = MAP_WIDTH - 1 ∨ y = MAP_HEIGHT - 1 then
      default_fill_col x n (setCell worldMap x y ⟨1, 0⟩)
    else
      default_fill_col x n (setCell worldMap x y ⟨0, 0⟩)

/-- The outer loop `for (int x = 0; x < MAP_WIDTH; x++)` of the default map,
`n` iterations left. -/
def default_fill : Nat → WorldMap → WorldMap
  | 0, worldMap => worldMap
  | n + 1, worldMap =>
    default_fill n (default_fill_col (MAP_WIDTH - (n + 1)) MAP_HEIGHT worldMap)

/-- The loop `for (int x = 5; x < 19; x++)` writing the interior segment,
`n` iterations left (so `x = 19 - n`). -/
def default_segment : Nat → WorldMap → WorldMap
  | 0, worldMap => worldMap
  | n + 1, worldMap =>
    default_segment n (setCell worldMap (19 - (n + 1)) 10 ⟨1, 0⟩)

/-- Source: `void initialize_worldMap(const char* filename, const char* atlasname)`:
the global `worldMap` after the call (loading the texture atlas does not touch
the map and is left out). -/
def initialize_worldMap (file : Option (List Nat)) (worldMap : WorldMap) : WorldMap :=
  let r := load_map file worldMap
  if r.1 = 0 then
    default_segment 14 (default_fill MAP_WIDTH r.2)
  else
    r.2

/-- Modelled from the spec: the map-file writer, which the repository does not
contain.  "for each of `height` rows (outer) then `width` columns (inner),
2 bytes: `tileByte`, `eventByte`". -/
def write_map (grid : WorldMap) : List Nat :=
  (List.range MAP_HEIGHT).flatMap fun y =>
    (List.range MAP_WIDTH).flatMap fun x =>
      [(grid x y).tileByte, (grid x y).eventByte]

/-- The synthetic default map as the specification describes it, with the
bytes the source stores: the border cells and the segment `5 ≤ x < 19`, `y = 10`
hold tile byte 1, every other cell holds tile byte 0; all event bytes are 0. -/
def default_cell (x y : Nat) : Cell :=
  if x = 0 ∨ y = 0 ∨ x = MAP_WIDTH - 1 ∨ y = MAP_HEIGHT - 1 ∨ (5 ≤ x ∧ x < 19 ∧ y = 10) then
    ⟨1, 0⟩
  else
    ⟨0, 0⟩

/-! ## The motion controller -/

/-- Source: `typedef enum { NORTH, EAST, SOUTH, WEST } Direction;` -/
inductive Direction where
  | NORTH
  | EAST
  | SOUTH
  | WEST
  deriving DecidableEq, Repr

/-- The integer value of an enumerator. -/
def Direction.val : Direction → Nat
  | .NORTH => 0
  | .EAST => 1
  | .SOUTH => 2
  | .WEST => 3

/-- The enumerator with a given value (used on values reduced modulo 4). -/
def Direction.ofVal : Nat → Direction
  | 0 => .NORTH
  | 1 => .EAST
  | 2 => .SOUTH
  | _ => .WEST

/-- The global variables of the motion controller. -/
structure State where
  playerX : ℚ
  playerY : ℚ
  dirAngle : ℚ
  isMoving : Int
  isRotating : Int
  moveStartTime : Nat
  rotateStartTime : Nat
  startX : ℚ
  startY : ℚ
  targetX : ℚ
  targetY : ℚ
  startAngle : ℚ
  targetAngle : ℚ
  gridX : Int
  gridY : Int
  gridDir : Direction
  deriving DecidableEq

/-- The initial values of the globals (those without an initialiser are zero). -/
def init_state : State where
  playerX := 12.5
  playerY := 12.5
  dirAngle := 0
  isMoving := 0
  isRotating := 0
  moveStartTime := 0
  rotateStartTime := 0
  startX := 0
  startY := 0
  targetX := 0
  targetY := 0
  startAngle := 0
  targetAngle := 0
  gridX := 12
  gridY := 12
  gridDir := .NORTH

/-- The difference `a - b` of two `Uint32` values. -/
def u32_sub (a b : Nat) : Nat :=
  (a % 2 ^ 32 + (2 ^ 32 - b % 2 ^ 32)) % 2 ^ 32

/-- The eight assignments of an accepted move (the same in all six move
requests). -/
def begin_move (s : State) (newX newY : Int) (currentTime : Nat) : State :=
  { s with
    isMoving := 1
    moveStartTime := currentTime
    startX := s.playerX
    startY := s.playerY
    targetX := (newX : ℚ) + 0.5
    targetY := (newY : ℚ) + 0.5
    gridX := newX
    gridY := newY }

/-- The `switch (gridDir)` of `initiate_move_forward`: `(newX, newY)`. -/
def forward_target (s : State) : Int × Int :=
  match s.gridDir with
  | .NORTH => (s.gridX + 1, s.gridY)
  | .EAST => (s.gridX, s.gridY - 1)
  | .SOUTH => (s.gridX - 1, s.gridY)
  | .WEST => (s.gridX, s.gridY + 1)

/-- The `switch (gridDir)` of `initiate_move_backward`: `(newX, newY)`. -/
def backward_target (s : State) : Int × Int :=
  match s.gridDir with
  | .NORTH => (s.gridX - 1, s.gridY)
  | .EAST => (s.gridX, s.gridY + 1)
  | .SOUTH => (s.gridX + 1, s.gridY)
  | .WEST => (s.gridX, s.gridY - 1)

/-- The part of `initiate_move_forward` and `initiate_move_backward` after the
`switch`: the full bounds check, the read of the target cell and the
walkability test on `get_tile_type`. -/
def move_checked (worldMap : WorldMap) (s : State) (newX newY : Int)
    (currentTime : Nat) : Option State :=
  if newX ≥ 0 ∧ newX < MAP_WIDTH ∧ newY ≥ 0 ∧ newY < MAP_HEIGHT then
    match worldMapAt worldMap newX newY with
    | none => none
    | some targetCell =>
      let tileType := get_tile_type targetCell
      if tileType = 0 ∨ tileType = 2 then
        some (begin_move s newX newY currentTime)
      else
        some s
  else
    some s

/-- Source: `void initiate_move_forward(Uint32 currentTime)` -/
def initiate_move_forward (worldMap : WorldMap) (s : State) (currentTime : Nat) :
    Option State :=
  if s.isMoving = 0 ∧ s.isRotating = 0 then
    move_checked worldMap s (forward_target s).1 (forward_target s).2 currentTime
  else
    some s

/-- Source: `void initiate_move_backward(Uint32 currentTime)` -/
def initiate_move_backward (worldMap : WorldMap) (s : State) (currentTime : Nat) :
    Option State :=
  if s.isMoving = 0 ∧ s.isRotating = 0 then
    move_checked worldMap s (backward_target s).1 (backward_target s).2 currentTime
  else
    some s

/-- Source: `void initiate_turn_left(Uint32 currentTime)` -/
def initiate_turn_left (s : State) (currentTime : Nat) : State :=
  if s.isMoving = 0 ∧ s.isRotating = 0 then
    { s with
      isRotating := 1
      rotateStartTime := currentTime
      startAngle := s.dirAngle
      gridDir := Direction.ofVal ((s.gridDir.val + 1) % 4)
      targetAngle := s.dirAngle - M_PI / 2 }
  else
    s

/-- Source: `void initiate_turn_right(Uint32 currentTime)` -/
def initiate_turn_right (s : State) (currentTime : Nat) : State :=
  if s.isMoving = 0 ∧ s.isRotating = 0 then
    { s with
      isRotating := 1
      rotateStartTime := currentTime
      startAngle := s.dirAngle
      gridDir := Direction.ofVal ((s.gridDir.val + 3) % 4)
      targetAngle := s.dirAngle + M_PI / 2 }
  else
    s

/-- The part shared by the four top-down requests after `newX`, `newY` are
computed: the check `if (newY >= 0)`, the read of `worldMap[newX][newY]` and
the walkability test on the masked tile byte. -/
def move_topdown (worldMap : WorldMap) (s : State) (newX newY : Int)
    (currentTime : Nat) : Option State :=
  if newY ≥ 0 then
    match worldMapAt worldMap newX newY with
    | none => none
    | some targetCell =>
      let tileTypeBits := targetCell.tileByte &&& TILE_TYPE_MASK
      if tileTypeBits = TILE_TYPE_FLOOR ∨ tileTypeBits = TILE_TYPE_HALF_FLOOR then
        some (begin_move s newX newY currentTime)
      else
        some s
  else
    some s

/-- Source: `void initiate_move_up(Uint32 currentTime)` -/
def initiate_move_up (worldMap : WorldMap) (s : State) (currentTime : Nat) :
    Option State :=
  if s.isMoving = 0 ∧ s.isRotating = 0 then
    move_topdown worldMap s s.gridX (s.gridY - 1) currentTime
  else
    some s

/-- Source: `void initiate_move_down(Uint32 currentTime)` -/
def initiate_move_down (worldMap : WorldMap) (s : State) (currentTime : Nat) :
    Option State :=
  if s.isMoving = 0 ∧ s.isRotating = 0 then
    move_topdown worldMap s s.gridX (s.gridY + 1) currentTime
  else
    some s

/-- Source: `void initiate_move_right(Uint32 currentTime)` -/
def initiate_move_right (worldMap : WorldMap) (s : State) (currentTime : Nat) :
    Option State :=
  if s.isMoving = 0 ∧ s.isRotating = 0 then
    move_topdown worldMap s (s.gridX + 1) s.gridY currentTime
  else
    some s

/-- Source: `void initiate_move_left(Uint32 currentTime)` -/
def initiate_move_left (worldMap : WorldMap) (s : State) (currentTime : Nat) :
    Option State :=
  if s.isMoving = 0 ∧ s.isRotating = 0 then
    move_topdown worldMap s (s.gridX - 1) s.gridY currentTime
  else
    some s

/-- Source: `void update_movement(Uint32 currentTime)` -/
def update_movement (s : State) (currentTime : Nat) : State :=
  if s.isMoving ≠ 0 then
    let elapsed := u32_sub currentTime s.moveStartTime
    let t : ℚ := (elapsed : ℚ) / (MOVE_DURATION : ℚ)
    if t ≥ 1 then
      { s with playerX := s.targetX, playerY := s.targetY, isMoving := 0 }
    else
      { s with
        playerX := s.startX + (s.targetX - s.startX) * t
        playerY := s.startY + (s.targetY - s.startY) * t }
  else
    s

/-- The two wrapping statements at the end of `update_rotation`:
`if (dirAngle < 0) dirAngle += 2 * M_PI;`
`if (dirAngle >= 2 * M_PI) dirAngle -= 2 * M_PI;` -/
def wrap_angle (dirAngle : ℚ) : ℚ :=
  let a := if dirAngle < 0 then dirAngle + 2 * M_PI else dirAngle
  if a ≥ 2 * M_PI then a - 2 * M_PI else a

/-- Source: `void update_rotation(Uint32 currentTime)` -/
def update_rotation (s : State) (currentTime : Nat) : State :=
  if s.isRotating ≠ 0 then
    let elapsed := u32_sub currentTime s.rotateStartTime
    let t : ℚ := (elapsed : ℚ) / (ROTATE_DURATION : ℚ)
    if t ≥ 1 then
      { s with dirAngle := wrap_angle s.targetAngle, isRotating := 0 }
    else
      { s with dirAngle := wrap_angle (s.startAngle + (s.targetAngle - s.startAngle) * t) }
  else
    s

/-! ## Requests and runs -/

/-- The six move requests. -/
inductive MoveRequest where
  | forward
  | backward
  | up
  | down
  | left
  | right
  deriving DecidableEq, Repr

/-- The cell `(newX, newY)` a move request computes from the state. -/
def MoveRequest.target (r : MoveRequest) (s : State) : Int × Int :=
  match r with
  | .forward => forward_target s
  | .backward => backward_target s
  | .up => (s.gridX, s.gridY - 1)
  | .down => (s.gridX, s.gridY + 1)
  | .left => (s.gridX - 1, s.gridY)
  | .right => (s.gridX + 1, s.gridY)

/-- The call of the function a move request stands for. -/
def MoveRequest.apply (r : MoveRequest) (worldMap : WorldMap) (s : State)
    (currentTime : Nat) : Option State :=
  match r with
  | .forward => initiate_move_forward worldMap s currentTime
  | .backward => initiate_move_backward worldMap s currentTime
  | .up => initiate_move_up worldMap s currentTime
  | .down => initiate_move_down worldMap s currentTime
  | .left => initiate_move_left worldMap s currentTime
  | .right => initiate_move_right worldMap s currentTime

/-- One call into the motion controller: a move request, a turn request or an
update, each with the tick count it is given. -/
inductive Action where
  | move (r : MoveRequest) (currentTime : Nat)
  | turn_left (currentTime : Nat)
  | turn_right (currentTime : Nat)
  | update_movement (currentTime : Nat)
  | update_rotation (currentTime : Nat)
  deriving DecidableEq, Repr

/-- The state after one call (`none` when the call reads outside the map). -/
def step (worldMap : WorldMap) (s : State) : Action → Option State
  | .move r currentTime => r.apply worldMap s currentTime
  | .turn_left currentTime => some (initiate_turn_left s currentTime)
  | .turn_right currentTime => some (initiate_turn_right s currentTime)
  | .update_movement currentTime => some (update_movement s currentTime)
  | .update_rotation currentTime => some (update_rotation s currentTime)

/-- The state after a sequence of calls, in order. -/
def run (worldMap : WorldMap) (s : State) : List Action → Option State
  | [] => some s
  | a :: rest =>
    match step worldMap s a with
    | none => none
    | some s1 => run worldMap s1 rest

/-! ## Runs that go on after a read outside the array

The top-down requests read `worldMap[newX][newY]` after the check
`if (newY >= 0)` only, so the read can be outside the array.  When the program
goes on after such a read, the read has delivered the two bytes the memory
holds at that address.  The definitions below are the requests with a read
that always delivers a cell: the cell of the array for indices inside its
bounds, and a cell `outside x y` otherwise.  Nothing is assumed of `outside`;
in a run it may differ from call to call. -/

/-- The read `worldMap[x][y]` for `int` indices when the program goes on after
it: the cell of the array inside the declared bounds, the cell `outside x y`
elsewhere. -/
def worldMapRead (outside : Int → Int → Cell) (worldMap : WorldMap) (x y : Int) : Cell :=
  match worldMapAt worldMap x y with
  | some targetCell => targetCell
  | none => outside x y

/-- The part of `initiate_move_forward` and `initiate_move_backward` after the
`switch`, with the read `worldMapRead`. -/
def move_checked_any (outside : Int → Int → Cell) (worldMap : WorldMap) (s : State)
    (newX newY : Int) (currentTime : Nat) : State :=
  if newX ≥ 0 ∧ newX < MAP_WIDTH ∧ newY ≥ 0 ∧ newY < MAP_HEIGHT then
    let targetCell := worldMapRead outside worldMap newX newY
    let tileType := get_tile_type targetCell
    if tileType = 0 ∨ tileType = 2 then
      begin_move s newX newY currentTime
    else
      s
  else
    s

/-- The part shared by the four top-down requests after `newX`, `newY` are
computed, with the read `worldMapRead`: the check `if (newY >= 0)`, the read
and the walkability test on the masked tile byte. -/
def move_topdown_any (outside : Int → Int → Cell) (worldMap : WorldMap) (s : State)
    (newX newY : Int) (currentTime : Nat) : State :=
  if newY ≥ 0 then
    let targetCell := worldMapRead outside worldMap newX newY
    let tileTypeBits := targetCell.tileByte &&& TILE_TYPE_MASK
    if tileTypeBits = TILE_TYPE_FLOOR ∨ tileTypeBits = TILE_TYPE_HALF_FLOOR then
      begin_move s newX newY currentTime
    else
      s
  else
    s

/-- The call of the function a move request stands for, with the read
`worldMapRead`: the test `if (!isMoving && !isRotating)`, then the body of the
forward and backward requests or of the top-down requests. -/
def MoveRequest.apply_any (outside : Int → Int → Cell) (r : MoveRequest)
    (worldMap : WorldMap) (s : State) (currentTime : Nat) : State :=
  if s.isMoving = 0 ∧ s.isRotating = 0 then
    match r with
    | .forward =>
      move_checked_any outside worldMap s (forward_target s).1 (forward_target s).2 currentTime
    | .backward =>
      move_checked_any outside worldMap s (backward_target s).1 (backward_target s).2 currentTime
    | .up => move_topdown_any outside worldMap s s.gridX (s.gridY - 1) currentTime
    | .down => move_topdown_any outside worldMap s s.gridX (s.gridY + 1) currentTime
    | .left => move_topdown_any outside worldMap s (s.gridX - 1) s.gridY currentTime
    | .right => move_topdown_any outside worldMap s (s.gridX + 1) s.gridY currentTime
  else
    s

/-- The state after one call, with the read `worldMapRead`. -/
def step_any (outside : Int → Int → Cell) (worldMap : WorldMap) (s : State) : Action → State
  | .move r currentTime => r.apply_any outside worldMap s currentTime
  | .turn_left currentTime => initiate_turn_left s currentTime
  | .turn_right currentTime => initiate_turn_right s currentTime
  | .update_movement currentTime => update_movement s currentTime
  | .update_rotation currentTime => update_rotation s currentTime

/-- The state after a sequence of calls, in order, with the read
`worldMapRead`; `outside k` is what the memory outside the array holds during
call number `k` of the sequence. -/
def run_any (outside : Nat → Int → Int → Cell) (worldMap : WorldMap) (s : State) :
    List Action → State
  | [] => s
  | a :: rest =>
    run_any (fun k => outside (k + 1)) worldMap (step_any (outside 0) worldMap s a) rest

/-! ## Invariants of the motion controller -/

/-- The animation state is one of Idle, Moving, Rotating: the two flags hold
0 or 1 and are not both set. -/
def anim_inv (s : State) : Prop :=
  (s.isMoving = 0 ∧ s.isRotating = 0) ∨ (s.isMoving = 1 ∧ s.isRotating = 0) ∨
    (s.isMoving = 0 ∧ s.isRotating = 1)

/-- The angle is in `[0, 2 * M_PI)`, and while a rotation is running its start
angle is in `[0, 2 * M_PI)` and its target is a quarter turn from the start. -/
def rotation_inv (s : State) : Prop :=
  (0 ≤ s.dirAngle ∧ s.dirAngle < 2 * M_PI) ∧
  (s.isRotating ≠ 0 →
    (0 ≤ s.startAngle ∧ s.startAngle < 2 * M_PI) ∧
    (s.targetAngle = s.startAngle - M_PI / 2 ∨ s.targetAngle = s.startAngle + M_PI / 2))

/-- The grid cell of the state is inside the map and walkable (tile type Floor
or HalfFloor). -/
def on_walkable (worldMap : WorldMap) (s : State) : Prop :=
  (0 ≤ s.gridX ∧ s.gridX < MAP_WIDTH ∧ 0 ≤ s.gridY ∧ s.gridY < MAP_HEIGHT) ∧
  (get_tile_type (worldMap s.gridX.toNat s.gridY.toNat) = 0 ∨
    get_tile_type (worldMap s.gridX.toNat s.gridY.toNat) = 2)

/-- The discrete and the continuous position agree: with `isMoving` clear the
player is at the centre of the grid cell; with `isMoving` set the target is the
centre of the grid cell and the player is on the segment from start to
target. -/
def sync_inv (s : State) : Prop :=
  (s.isMoving = 0 →
    s.playerX = (s.gridX : ℚ) + 0.5 ∧ s.playerY = (s.gridY : ℚ) + 0.5) ∧
  (s.isMoving ≠ 0 →
    (s.targetX = (s.gridX : ℚ) + 0.5 ∧ s.targetY = (s.gridY : ℚ) + 0.5) ∧
    ∃ l : ℚ, 0 ≤ l ∧ l ≤ 1 ∧
      s.playerX = s.startX + (s.targetX - s.startX) * l ∧
      s.playerY = s.startY + (s.targetY - s.startY) * l)

/-- The angle that belongs to a facing: `((4 - gridDir) mod 4) * M_PI / 2`. -/
def facing_angle (d : Direction) : ℚ :=
  (((4 - d.val) % 4 : Nat) : ℚ) * (M_PI / 2)

/-- The angle agrees with the facing: with `isRotating` clear `dirAngle` is the
angle of `gridDir`; while a rotation runs, the wrapped target angle is. -/
def facing_inv (s : State) : Prop :=
  (s.isRotating = 0 → s.dirAngle = facing_angle s.gridDir) ∧
  (s.isRotating ≠ 0 → wrap_angle s.targetAngle = facing_angle s.gridDir)

/-- The calls `handle_raycasting_input` and the main loop make in raycast mode:
forward, backward, the two turns and the two updates. -/
def Action.raycast_mode : Action → Bool
  | .move .forward _ => true
  | .move .backward _ => true
  | .move _ _ => false
  | .turn_left _ => true
  | .turn_right _ => true
  | .update_movement _ => true
  | .update_rotation _ => true

/-- A left turn requested at tick `t` and the `update_rotation` call `e` ticks
later (the tick counter is a `Uint32`). -/
def turn_left_done (s : State) (t e : Nat) : State :=
  update_rotation (initiate_turn_left s t) ((t + e) % 2 ^ 32)

/-- A right turn requested at tick `t` and the `update_rotation` call `e` ticks
later. -/
def turn_right_done (s : State) (t e : Nat) : State :=
  update_rotation (initiate_turn_right s t) ((t + e) % 2 ^ 32)

/-! ## Texture atlas addressing -/

/-- The wall path of `raycaster`: `texCol = textureIndex % ATLAS_COLUMNS`,
`texRow = textureIndex / ATLAS_COLUMNS`, and the result is
`(textureOffsetX, textureOffsetY) = (texCol * TILE_SIZE, texRow * TILE_SIZE)`. -/
def wall_atlas_offset (textureIndex : Nat) : Nat × Nat :=
  let texCol := textureIndex % ATLAS_COLUMNS
  let texRow := textureIndex / ATLAS_COLUMNS
  (texCol * TILE_SIZE, texRow * TILE_SIZE)

/-- The floor path of `raycaster`: `atlasColumns = texture_atlas->w / TILE_SIZE`,
then the same two formulas with `atlasColumns`.  `atlasWidth` is the width of
the loaded atlas image; with `atlasColumns = 0` the `%` and `/` divide by zero
and there is no result. -/
def floor_atlas_offset (atlasWidth floorTextureIndex : Nat) : Option (Nat × Nat) :=
  let atlasColumns := atlasWidth / TILE_SIZE
  if atlasColumns = 0 then
    none
  else
    let texCol := floorTextureIndex % atlasColumns
    let texRow := floorTextureIndex / atlasColumns
    some (texCol * TILE_SIZE, texRow * TILE_SIZE)

/-! ## The DDA of `raycaster`

The part of the body of the column loop from `int mapX = (int)playerX;` to
`int lineHeight = ...`, for one ray.  The ray direction `(rayDirX, rayDirY)` is
an input: the source computes it from `cos(dirAngle)` and `sin(dirAngle)`. -/

/-- The conversion `(int)d` of a `double`: truncation toward zero. -/
def to_int (d : ℚ) : Int :=
  if 0 ≤ d then ⌊d⌋ else ⌈d⌉

/-- Source: `(rayDir == 0) ? 1e30 : fabs(1 / rayDir)`, the value of `deltaDistX`
and of `deltaDistY`. -/
def deltaDist (rayDir : ℚ) : ℚ :=
  if rayDir = 0 then 1e30 else |1 / rayDir|

/-- The value of `stepX` and of `stepY`: `-1` when the ray component is
negative, `1` otherwise. -/
def ray_step (rayDir : ℚ) : Int :=
  if rayDir < 0 then -1 else 1

/-- The variables the DDA loop updates.  `side` has no initialiser in the
source and is assigned in every iteration; it starts as 0 here. -/
structure DDA where
  sideDistX : ℚ
  sideDistY : ℚ
  mapX : Int
  mapY : Int
  side : Int
  deriving DecidableEq

/-- The state before the loop: `mapX = (int)playerX`, `mapY = (int)playerY` and
the two initial side distances. -/
def dda_start (playerX playerY rayDirX rayDirY : ℚ) : DDA :=
  let mapX := to_int playerX
  let mapY := to_int playerY
  { sideDistX :=
      if rayDirX < 0 then (playerX - (mapX : ℚ)) * deltaDist rayDirX
      else ((mapX : ℚ) + 1.0 - playerX) * deltaDist rayDirX
    sideDistY :=
      if rayDirY < 0 then (playerY - (mapY : ℚ)) * deltaDist rayDirY
      else ((mapY : ℚ) + 1.0 - playerY) * deltaDist rayDirY
    mapX := mapX
    mapY := mapY
    side := 0 }

/-- The first statement of the loop body: jump to the next map square in x or
in y direction. -/
def dda_jump (rayDirX rayDirY : ℚ) (d : DDA) : DDA :=
  if d.sideDistX < d.sideDistY then
    { d with
      sideDistX := d.sideDistX + deltaDist rayDirX
      mapX := d.mapX + ray_step rayDirX
      side := 0 }
  else
    { d with
      sideDistY := d.sideDistY + deltaDist rayDirY
      mapY := d.mapY + ray_step rayDirY
      side := 1 }

/-- The second statement of the loop body, the value given to `hit`: inside
the map, whether the tile type of the cell is above 0; outside the map, 1. -/
def dda_hit (worldMap : WorldMap) (d : DDA) : Bool :=
  if 0 ≤ d.mapX ∧ d.mapX < MAP_WIDTH ∧ 0 ≤ d.mapY ∧ d.mapY < MAP_HEIGHT then
    decide (get_tile_type (worldMap d.mapX.toNat d.mapY.toNat) > 0)
  else
    true

/-- The loop `while (hit == 0)` run for at most `fuel` iterations: the state
at which it stops, or `none` when `fuel` iterations do not reach a hit. -/
def dda_loop (worldMap : WorldMap) (rayDirX rayDirY : ℚ) : Nat → DDA → Option DDA
  | 0, _ => none
  | fuel + 1, d =>
    let d1 := dda_jump rayDirX rayDirY d
    if dda_hit worldMap d1 then some d1 else dda_loop worldMap rayDirX rayDirY fuel d1

/-- The assignment to `perpWallDist` after the loop; `(1 - stepX) / 2` is an
integer division. -/
def perp_wall_dist (playerX playerY rayDirX rayDirY : ℚ) (d : DDA) : ℚ :=
  if d.side = 0 then
    ((d.mapX : ℚ) - playerX + (((1 - ray_step rayDirX) / 2 : Int) : ℚ)) / rayDirX
  else
    ((d.mapY : ℚ) - playerY + (((1 - ray_step rayDirY) / 2 : Int) : ℚ)) / rayDirY

/-- What the DDA of one ray delivers: the cell it stops at, the side and the
perpendicular wall distance. -/
structure RayHit where
  mapX : Int
  mapY : Int
  side : Int
  perpWallDist : ℚ
  deriving DecidableEq

/-- The DDA of one ray with at most `fuel` loop iterations. -/
def cast_ray (worldMap : WorldMap) (playerX playerY rayDirX rayDirY : ℚ) (fuel : Nat) :
    Option RayHit :=
  match dda_loop worldMap rayDirX rayDirY fuel (dda_start playerX playerY rayDirX rayDirY) with
  | none => none
  | some d =>
    some
      { mapX := d.mapX
        mapY := d.mapY
        side := d.side
        perpWallDist := perp_wall_dist playerX playerY rayDirX rayDirY d }

theorem and_shiftRight_distrib (a b i : Nat) :
    (a &&& b) >>> i = (a >>> i) &&& (b >>> i) := by
  apply Nat.eq_of_testBit_eq
  intro j
  simp

theorem get_tile_type_eq (c : Cell) : get_tile_type c = c.tileByte / 64 % 4 := by
  unfold get_tile_type
  rw [and_shiftRight_distrib]
  have h3 : (TILE_TYPE_MASK >>> 6) = 2 ^ 2 - 1 := by decide
  rw [h3, Nat.and_pow_two_sub_one_eq_mod, Nat.shiftRight_eq_div_pow]

theorem get_texture_index_eq (c : Cell) : get_texture_index c = c.tileByte % 64 := by
  unfold get_texture_index
  have h : TEXTURE_INDEX_MASK = 2 ^ 6 - 1 := by decide
  rw [h, Nat.and_pow_two_sub_one_eq_mod]

theorem get_event_type_eq (c : Cell) : get_event_type c = c.eventByte / 32 % 8 := by
  unfold get_event_type
  rw [and_shiftRight_distrib]
  have h3 : (EVENT_TYPE_MASK >>> 5) = 2 ^ 3 - 1 := by decide
  rw [h3, Nat.and_pow_two_sub_one_eq_mod, Nat.shiftRight_eq_div_pow]

theorem get_event_id_eq (c : Cell) : get_event_id c = c.eventByte % 32 := by
  unfold get_event_id
  have h : EVENT_ID_MASK = 2 ^ 5 - 1 := by decide
  rw [h, Nat.and_pow_two_sub_one_eq_mod]

theorem mod64_testBit (b j : Nat) :
    (b % 64).testBit j = (decide (j < 6) && b.testBit j) := by
  have h : (64 : Nat) = 2 ^ 6 := by norm_num
  rw [h, Nat.testBit_mod_two_pow]

theorem div64_mod4_testBit (b j : Nat) :
    (b / 64 % 4).testBit j = (decide (j < 2) && b.testBit (6 + j)) := by
  have h4 : (4 : Nat) = 2 ^ 2 := by norm_num
  have h64 : b / 64 = b >>> 6 := by rw [Nat.shiftRight_eq_div_pow]
  rw [h4, h64, Nat.testBit_mod_two_pow, Nat.testBit_shiftRight]

theorem div64_mod4_congr (b b' : Nat) (h6 : b'.testBit 6 = b.testBit 6)
    (h7 : b'.testBit 7 = b.testBit 7) : b' / 64 % 4 = b / 64 % 4 := by
  apply Nat.eq_of_testBit_eq
  intro j
  rw [div64_mod4_testBit, div64_mod4_testBit]
  rcases j with _ | _ | j
  · simpa using h6
  · simpa using h7
  · have hj : ¬ (j + 1 + 1 < 2) := by omega
    simp only [hj, decide_False, Bool.false_and]

theorem mod64_congr (b b' : Nat) (h : ∀ i, i < 6 → b'.testBit i = b.testBit i) :
    b' % 64 = b % 64 := by
  apply Nat.eq_of_testBit_eq
  intro j
  rw [mod64_testBit, mod64_testBit]
  by_cases hj : j < 6
  · simp [hj, h j hj]
  · simp [hj]

/-! ## C3: decoding -/

/-- C3: for every tile byte `b` and event byte `e` (values below 256),
`get_tile_type` is below 4 and equals `b / 64`, and any byte with the same
bits 6 and 7 has the same tile type; `get_texture_index` is below 64 and equals
`b % 64`, and any byte with the same bits 0..5 has the same texture index;
`get_event_type` is below 8 and equals `e / 32`; `get_event_id` is below 32 and
equals `e % 32`.  The four decoders are total functions. -/
theorem decode_bytes (b e : Nat) (hb : b < 256) (he : e < 256) :
    (get_tile_type ⟨b, e⟩ < 4 ∧ get_tile_type ⟨b, e⟩ = b / 64) ∧
    (∀ b' e' : Nat, b'.testBit 6 = b.testBit 6 → b'.testBit 7 = b.testBit 7 →
      get_tile_type ⟨b', e'⟩ = get_tile_type ⟨b, e⟩) ∧
    (get_texture_index ⟨b, e⟩ < 64 ∧ get_texture_index ⟨b, e⟩ = b % 64) ∧
    (∀ b' e' : Nat, (∀ i, i < 6 → b'.testBit i = b.testBit i) →
      get_texture_index ⟨b', e'⟩ = get_texture_index ⟨b, e⟩) ∧
    (get_event_type ⟨b, e⟩ < 8 ∧ get_event_type ⟨b, e⟩ = e / 32) ∧
    (get_event_id ⟨b, e⟩ < 32 ∧ get_event_id ⟨b, e⟩ = e % 32) := by
  refine ⟨⟨?_, ?_⟩, ?_, ⟨?_, ?_⟩, ?_, ⟨?_, ?_⟩, ?_, ?_⟩
  · rw [get_tile_type_eq]; exact Nat.mod_lt _ (by norm_num)
  · rw [get_tile_type_eq]; simp only; omega
  · intro b' e' h6 h7
    rw [get_tile_type_eq, get_tile_type_eq]
    exact div64_mod4_congr b b' h6 h7
  · rw [get_texture_index_eq]; exact Nat.mod_lt _ (by norm_num)
  · rw [get_texture_index_eq]
  · intro b' e' h
    rw [get_texture_index_eq, get_texture_index_eq]
    exact mod64_congr b b' h
  · rw [get_event_type_eq]; exact Nat.mod_lt _ (by norm_num)
  · rw [get_event_type_eq]; simp only; omega
  · rw [get_event_id_eq]; exact Nat.mod_lt _ (by norm_num)
  · rw [get_event_id_eq]

/-- C3 at the bytes `0xC7` and `0xA5`: tile type 3, texture index 7, event
type 5, event id 5. -/
theorem decode_bytes_witness :
    (0xC7 < 256 ∧ 0xA5 < 256) ∧
    get_tile_type ⟨0xC7, 0xA5⟩ = 0xC7 / 64 ∧ get_texture_index ⟨0xC7, 0xA5⟩ = 0xC7 % 64 ∧
    get_event_type ⟨0xC7, 0xA5⟩ = 0xA5 / 32 ∧ get_event_id ⟨0xC7, 0xA5⟩ = 0xA5 % 32 :=
  have h := decode_bytes 0xC7 0xA5 (by decide) (by decide)
  ⟨⟨by decide, by decide⟩, h.1.2, h.2.2.1.2, h.2.2.2.2.1.2, h.2.2.2.2.2.2⟩

/-! ## C1: a move into a wall is rejected -/

theorem wall_not_walkable (c : Cell) (h : get_tile_type c = 1 ∨ get_tile_type c = 3) :
    ¬ (get_tile_type c = 0 ∨ get_tile_type c = 2) := by
  omega

theorem wall_bits_not_walkable (c : Cell) (h : get_tile_type c = 1 ∨ get_tile_type c = 3) :
    ¬ (c.tileByte &&& TILE_TYPE_MASK = TILE_TYPE_FLOOR ∨
        c.tileByte &&& TILE_TYPE_MASK = TILE_TYPE_HALF_FLOOR) := by
  unfold get_tile_type at h
  rintro (h0 | h0) <;> rw [h0] at h <;> revert h <;> decide

theorem worldMapAt_inside (worldMap : WorldMap) (x y : Int)
    (hx : 0 ≤ x ∧ x < MAP_WIDTH) (hy : 0 ≤ y ∧ y < MAP_HEIGHT) :
    worldMapAt worldMap x y = some (worldMap x.toNat y.toNat) := by
  unfold worldMapAt
  rw [if_pos ⟨hx.1, hx.2, hy.1, hy.2⟩]

theorem move_checked_wall (worldMap : WorldMap) (s : State) (x y : Int) (t : Nat)
    (hx : 0 ≤ x ∧ x < MAP_WIDTH) (hy : 0 ≤ y ∧ y < MAP_HEIGHT)
    (hw : get_tile_type (worldMap x.toNat y.toNat) = 1 ∨
      get_tile_type (worldMap x.toNat y.toNat) = 3) :
    move_checked worldMap s x y t = some s := by
  unfold move_checked
  rw [if_pos ⟨hx.1, hx.2, hy.1, hy.2⟩, worldMapAt_inside worldMap x y hx hy]
  simp only
  rw [if_neg (wall_not_walkable _ hw)]

theorem move_topdown_wall (worldMap : WorldMap) (s : State) (x y : Int) (t : Nat)
    (hx : 0 ≤ x ∧ x < MAP_WIDTH) (hy : 0 ≤ y ∧ y < MAP_HEIGHT)
    (hw : get_tile_type (worldMap x.toNat y.toNat) = 1 ∨
      get_tile_type (worldMap x.toNat y.toNat) = 3) :
    move_topdown worldMap s x y t = some s := by
  unfold move_topdown
  rw [if_pos hy.1, worldMapAt_inside worldMap x y hx hy]
  simp only
  rw [if_neg (wall_bits_not_walkable _ hw)]

/-- C1: for every map, every state, every tick count and each of the six move
requests, if the cell the request computes as its target lies inside the
30x24 grid and has tile type Wall (1) or HalfWall (3), the request returns the
state it was given: `gridX`, `gridY`, `isMoving`, `playerX`, `playerY`,
`dirAngle` and every other field are unchanged. -/
theorem move_into_wall_rejected (worldMap : WorldMap) (s : State) (r : MoveRequest)
    (currentTime : Nat)
    (hx : 0 ≤ (r.target s).1 ∧ (r.target s).1 < MAP_WIDTH)
    (hy : 0 ≤ (r.target s).2 ∧ (r.target s).2 < MAP_HEIGHT)
    (hw : get_tile_type (worldMap (r.target s).1.toNat (r.target s).2.toNat) = 1 ∨
      get_tile_type (worldMap (r.target s).1.toNat (r.target s).2.toNat) = 3) :
    r.apply worldMap s currentTime = some s := by
  by_cases hidle : s.isMoving = 0 ∧ s.isRotating = 0
  · cases r
    · simp only [MoveRequest.apply, initiate_move_forward, if_pos hidle]
      exact move_checked_wall worldMap s _ _ currentTime hx hy hw
    · simp only [MoveRequest.apply, initiate_move_backward, if_pos hidle]
      exact move_checked_wall worldMap s _ _ currentTime hx hy hw
    · simp only [MoveRequest.apply, initiate_move_up, if_pos hidle]
      exact move_topdown_wall worldMap s _ _ currentTime hx hy hw
    · simp only [MoveRequest.apply, initiate_move_down, if_pos hidle]
      exact move_topdown_wall worldMap s _ _ currentTime hx hy hw
    · simp only [MoveRequest.apply, initiate_move_left, if_pos hidle]
      exact move_topdown_wall worldMap s _ _ currentTime hx hy hw
    · simp only [MoveRequest.apply, initiate_move_right, if_pos hidle]
      exact move_topdown_wall worldMap s _ _ currentTime hx hy hw
  · cases r <;>
      simp only [MoveRequest.apply, initiate_move_forward, initiate_move_backward,
        initiate_move_up, initiate_move_down, initiate_move_left, initiate_move_right,
        if_neg hidle]

/-- C1 on the map whose every cell is a wall with texture 0 (tile byte `0x40`):
a forward request from the initial state (target cell (13, 12)) is rejected. -/
theorem move_into_wall_rejected_witness :
    get_tile_type ((fun _ _ => ⟨0x40, 0⟩ : WorldMap) 13 12) = 1 ∧
    MoveRequest.forward.apply (fun _ _ => ⟨0x40, 0⟩) init_state 7 = some init_state :=
  ⟨by decide,
   move_into_wall_rejected (fun _ _ => ⟨0x40, 0⟩) init_state .forward 7
     (by decide) (by decide) (by decide)⟩

/-! ## `load_map`: what a run of the loops does -/

theorem load_map_cols_ok (y : Nat) : ∀ (n : Nat) (file : List Nat) (wm : WorldMap),
    n ≤ MAP_WIDTH → 2 * n ≤ file.length →
    (load_map_cols y n file wm).1 = true ∧
    (load_map_cols y n file wm).2.1 = file.drop (2 * n) ∧
    ∀ i j, (load_map_cols y n file wm).2.2 i j =
      if j = y ∧ MAP_WIDTH - n ≤ i ∧ i < MAP_WIDTH then
        ⟨file.getD (2 * (i - (MAP_WIDTH - n))) 0, file.getD (2 * (i - (MAP_WIDTH - n)) + 1) 0⟩
      else wm i j := by
  intro n
  induction n with
  | zero =>
    intro file wm _ _
    refine ⟨rfl, rfl, ?_⟩
    intro i j
    have h : ¬ (j = y ∧ MAP_WIDTH - 0 ≤ i ∧ i < MAP_WIDTH) := by omega
    rw [if_neg h]
    rfl
  | succ n ih =>
    intro file wm hn hlen
    match file, hlen with
    | [], hlen => simp at hlen
    | [_], hlen => simp at hlen; omega
    | b0 :: b1 :: rest, hlen =>
      have hlen' : 2 * n ≤ rest.length := by simp at hlen; omega
      obtain ⟨h1, h2, h3⟩ := ih rest (setCell wm (MAP_WIDTH - (n + 1)) y ⟨b0, b1⟩) (by omega) hlen'
      simp only [load_map_cols]
      refine ⟨h1, ?_, ?_⟩
      · rw [h2]
        have : 2 * (n + 1) = 2 * n + 1 + 1 := by ring
        rw [this, List.drop_succ_cons, List.drop_succ_cons]
      · intro i j
        rw [h3 i j]
        by_cases hj : j = y
        · by_cases hi1 : MAP_WIDTH - n ≤ i ∧ i < MAP_WIDTH
          · have hc : j = y ∧ MAP_WIDTH - (n + 1) ≤ i ∧ i < MAP_WIDTH := ⟨hj, by omega, hi1.2⟩
            rw [if_pos ⟨hj, hi1⟩, if_pos hc]
            obtain ⟨k, hk⟩ : ∃ k, i - (MAP_WIDTH - (n + 1)) = k + 1 ∧ i - (MAP_WIDTH - n) = k :=
              ⟨i - (MAP_WIDTH - n), by omega, rfl⟩
            rw [hk.1, hk.2]
            have e1 : 2 * (k + 1) = 2 * k + 1 + 1 := by ring
            rw [e1]
            rfl
          · rw [if_neg (fun h => hi1 h.2)]
            by_cases hi0 : i = MAP_WIDTH - (n + 1)
            · have hc : j = y ∧ MAP_WIDTH - (n + 1) ≤ i ∧ i < MAP_WIDTH := ⟨hj, by omega, by omega⟩
              rw [if_pos hc]
              have hz : i - (MAP_WIDTH - (n + 1)) = 0 := by omega
              rw [hz]
              simp [setCell, hi0, hj]
            · have hc : ¬ (j = y ∧ MAP_WIDTH - (n + 1) ≤ i ∧ i < MAP_WIDTH) := by omega
              rw [if_neg hc]
              simp [setCell, hi0]
        · rw [if_neg (fun h => hj h.1), if_neg (fun h => hj h.1)]
          simp [setCell, hj]
theorem getD_drop (l : List Nat) (a k : Nat) : (l.drop a).getD k 0 = l.getD (a + k) 0 := by
  simp only [List.getD_eq_getElem?_getD, List.getElem?_drop]

theorem load_map_rows_ok : ∀ (n : Nat) (file : List Nat) (wm : WorldMap),
    n ≤ MAP_HEIGHT → 2 * MAP_WIDTH * n ≤ file.length →
    (load_map_rows n file wm).1 = true ∧
    (load_map_rows n file wm).2.1 = file.drop (2 * MAP_WIDTH * n) ∧
    ∀ i j, (load_map_rows n file wm).2.2 i j =
      if MAP_HEIGHT - n ≤ j ∧ j < MAP_HEIGHT ∧ i < MAP_WIDTH then
        ⟨file.getD (2 * ((j - (MAP_HEIGHT - n)) * MAP_WIDTH + i)) 0,
         file.getD (2 * ((j - (MAP_HEIGHT - n)) * MAP_WIDTH + i) + 1) 0⟩
      else wm i j := by
  simp only [MAP_WIDTH, MAP_HEIGHT]
  intro n
  induction n with
  | zero =>
    intro file wm _ _
    refine ⟨rfl, rfl, ?_⟩
    intro i j
    have h : ¬ (24 - 0 ≤ j ∧ j < 24 ∧ i < 30) := by omega
    rw [if_neg h]
    rfl
  | succ n ih =>
    intro file wm hn hlen
    obtain ⟨c1, c2, c3⟩ := load_map_cols_ok (24 - (n + 1)) 30 file wm
      (le_refl _) (by omega)
    simp only [MAP_WIDTH] at c1 c2 c3
    rcases hres : load_map_cols (24 - (n + 1)) 30 file wm with ⟨b, rest, wm1⟩
    rw [hres] at c1 c2 c3
    simp only at c1 c2 c3
    subst c1
    subst c2
    obtain ⟨h1, h2, h3⟩ := ih (file.drop (2 * 30)) wm1 (by omega)
      (by rw [List.length_drop]; omega)
    simp only [load_map_rows, hres]
    refine ⟨h1, ?_, ?_⟩
    · rw [h2, List.drop_drop]
      congr 1
      ring
    · intro i j
      rw [h3 i j, c3 i j]
      by_cases hi : i < 30
      · by_cases hj1 : 24 - n ≤ j ∧ j < 24
        · rw [if_pos ⟨hj1.1, hj1.2, hi⟩, if_pos ⟨by omega, hj1.2, hi⟩]
          obtain ⟨k, hk⟩ : ∃ k, j - (24 - (n + 1)) = k + 1 ∧ j - (24 - n) = k :=
            ⟨j - (24 - n), by omega, rfl⟩
          rw [hk.1, hk.2, getD_drop, getD_drop]
          congr 2 <;> ring
        · rw [if_neg (fun h => hj1 ⟨h.1, h.2.1⟩)]
          by_cases hj0 : j = 24 - (n + 1)
          · rw [if_pos ⟨hj0, by omega, hi⟩, if_pos ⟨by omega, by omega, hi⟩]
            have hz : j - (24 - (n + 1)) = 0 := by omega
            rw [hz]
            congr 2 <;> simp
          · rw [if_neg (fun h => hj0 h.1), if_neg (by omega)]
      · rw [if_neg (fun h => hi h.2.2), if_neg (fun h => hi h.2.2), if_neg (fun h => hi h.2.2)]

theorem load_map_cols_short (y : Nat) : ∀ (n : Nat) (file : List Nat) (wm : WorldMap),
    file.length < 2 * n → (load_map_cols y n file wm).1 = false := by
  intro n
  induction n with
  | zero => intro file wm h; omega
  | succ n ih =>
    intro file wm hlen
    match file, hlen with
    | [], _ => rfl
    | [_], _ => rfl
    | b0 :: b1 :: rest, hlen =>
      simp only [load_map_cols]
      exact ih rest _ (by simp at hlen; omega)

theorem load_map_rows_short : ∀ (n : Nat) (file : List Nat) (wm : WorldMap),
    n ≤ MAP_HEIGHT → file.length < 2 * MAP_WIDTH * n → (load_map_rows n file wm).1 = false := by
  simp only [MAP_WIDTH, MAP_HEIGHT]
  intro n
  induction n with
  | zero => intro file wm _ h; omega
  | succ n ih =>
    intro file wm hn hlen
    by_cases hrow : file.length < 2 * 30
    · have c := load_map_cols_short (24 - (n + 1)) 30 file wm hrow
      rcases hres : load_map_cols (24 - (n + 1)) 30 file wm with ⟨b, rest, wm1⟩
      rw [hres] at c
      simp only at c
      subst c
      simp only [load_map_rows, hres]
    · obtain ⟨c1, c2, _⟩ := load_map_cols_ok (24 - (n + 1)) 30 file wm
        (le_refl _) (by omega)
      rcases hres : load_map_cols (24 - (n + 1)) 30 file wm with ⟨b, rest, wm1⟩
      rw [hres] at c1 c2
      simp only at c1 c2
      subst c1
      subst c2
      simp only [load_map_rows, hres]
      exact ih _ wm1 (by omega) (by rw [List.length_drop]; omega)

/-- A file of at least 1440 bytes loads, and the cell `(x, y)` comes from the
byte offsets `2 * (y * 30 + x)` and `2 * (y * 30 + x) + 1`. -/
theorem load_map_long (bytes : List Nat) (wm : WorldMap)
    (hlen : 2 * MAP_WIDTH * MAP_HEIGHT ≤ bytes.length) :
    (load_map (some bytes) wm).1 = 1 ∧
    ∀ x y, x < MAP_WIDTH → y < MAP_HEIGHT →
      (load_map (some bytes) wm).2 x y =
        ⟨bytes.getD (2 * (y * MAP_WIDTH + x)) 0, bytes.getD (2 * (y * MAP_WIDTH + x) + 1) 0⟩ := by
  obtain ⟨h1, _, h3⟩ := load_map_rows_ok MAP_HEIGHT bytes wm (le_refl _) hlen
  rcases hres : load_map_rows MAP_HEIGHT bytes wm with ⟨b, rest, wm1⟩
  rw [hres] at h1 h3
  simp only at h1 h3
  subst h1
  simp only [load_map, hres]
  refine ⟨trivial, ?_⟩
  intro x y hx hy
  rw [h3 x y, if_pos ⟨by omega, hy, hx⟩]
  simp

/-- A missing file, or one shorter than 1440 bytes, does not load. -/
theorem load_map_short (file : Option (List Nat)) (wm : WorldMap)
    (hshort : ∀ bytes, file = some bytes → bytes.length < 2 * MAP_WIDTH * MAP_HEIGHT) :
    (load_map file wm).1 = 0 := by
  cases file with
  | none => rfl
  | some bytes =>
    have h := load_map_rows_short MAP_HEIGHT bytes wm (le_refl _) (hshort bytes rfl)
    rcases hres : load_map_rows MAP_HEIGHT bytes wm with ⟨b, rest, wm1⟩
    rw [hres] at h
    simp only at h
    subst h
    simp only [load_map, hres]

/-! ## The written map file -/

theorem flatMap_length_const (f : Nat → List Nat) (c : Nat) (hc : ∀ a, (f a).length = c) :
    ∀ l : List Nat, (l.flatMap f).length = c * l.length := by
  intro l
  induction l with
  | nil => simp
  | cons a l ih =>
    rw [List.flatMap_cons, List.length_append, ih, hc a, List.length_cons]
    ring

theorem flatMap_getElem?_const (f : Nat → List Nat) (c : Nat) (hc : ∀ a, (f a).length = c) :
    ∀ (l : List Nat) (i r : Nat), r < c →
      (l.flatMap f)[c * i + r]? = (l[i]?).bind (fun a => (f a)[r]?) := by
  intro l
  induction l with
  | nil => intro i r _; simp
  | cons a l ih =>
    intro i r hr
    rw [List.flatMap_cons]
    cases i with
    | zero =>
      rw [List.getElem?_append_left (by rw [hc a]; omega)]
      simp
    | succ i =>
      rw [List.getElem?_append_right (by rw [hc a, Nat.mul_succ]; omega), hc a]
      have e : c * (i + 1) + r - c = c * i + r := by rw [Nat.mul_succ]; omega
      rw [e, ih i r hr]
      simp

theorem flatMap_range_getElem? (f : Nat → List Nat) (c : Nat) (hc : ∀ a, (f a).length = c)
    (n i r : Nat) (hi : i < n) (hr : r < c) :
    ((List.range n).flatMap f)[c * i + r]? = (f i)[r]? := by
  rw [flatMap_getElem?_const f c hc _ i r hr, List.getElem?_range hi]
  rfl

theorem write_map_length (grid : WorldMap) :
    (write_map grid).length = 2 * MAP_WIDTH * MAP_HEIGHT := by
  unfold write_map
  rw [flatMap_length_const _ (2 * MAP_WIDTH)]
  · simp
  · intro y
    rw [flatMap_length_const _ 2]
    · simp
    · intro x; rfl

theorem write_map_getElem? (grid : WorldMap) (x y q : Nat) (hx : x < MAP_WIDTH)
    (hy : y < MAP_HEIGHT) (hq : q < 2) :
    (write_map grid)[2 * (y * MAP_WIDTH + x) + q]? =
      [(grid x y).tileByte, (grid x y).eventByte][q]? := by
  unfold write_map
  have e : 2 * (y * MAP_WIDTH + x) + q = (2 * MAP_WIDTH) * y + (2 * x + q) := by ring
  rw [e, flatMap_range_getElem? _ (2 * MAP_WIDTH) _ MAP_HEIGHT y (2 * x + q) hy
    (by simp only [MAP_WIDTH] at hx ⊢; omega)]
  · rw [flatMap_range_getElem? _ 2 _ MAP_WIDTH x q hx hq]
    intro x; rfl
  · intro y
    rw [flatMap_length_const _ 2]
    · simp
    · intro x; rfl

/-! ## The default map -/

theorem default_fill_col_spec (x : Nat) : ∀ (n : Nat) (wm : WorldMap), n ≤ MAP_HEIGHT →
    ∀ i j, default_fill_col x n wm i j =
      if i = x ∧ MAP_HEIGHT - n ≤ j ∧ j < MAP_HEIGHT then
        (if x = 0 ∨ j = 0 ∨ x = MAP_WIDTH - 1 ∨ j = MAP_HEIGHT - 1 then ⟨1, 0⟩ else ⟨0, 0⟩)
      else wm i j := by
  simp only [MAP_WIDTH, MAP_HEIGHT]
  intro n
  induction n with
  | zero =>
    intro wm _ i j
    rw [if_neg (by omega)]
    rfl
  | succ n ih =>
    intro wm hn i j
    simp only [default_fill_col, MAP_WIDTH, MAP_HEIGHT]
    split
    · rw [ih _ (by omega) i j]
      simp only [setCell]
      split_ifs <;> first | rfl | omega
    · rw [ih _ (by omega) i j]
      simp only [setCell]
      split_ifs <;> first | rfl | omega

theorem default_fill_spec : ∀ (n : Nat) (wm : WorldMap), n ≤ MAP_WIDTH →
    ∀ i j, default_fill n wm i j =
      if MAP_WIDTH - n ≤ i ∧ i < MAP_WIDTH ∧ j < MAP_HEIGHT then
        (if i = 0 ∨ j = 0 ∨ i = MAP_WIDTH - 1 ∨ j = MAP_HEIGHT - 1 then ⟨1, 0⟩ else ⟨0, 0⟩)
      else wm i j := by
  intro n
  induction n with
  | zero =>
    intro wm _ i j
    rw [if_neg (by omega)]
    rfl
  | succ n ih =>
    intro wm hn i j
    simp only [default_fill]
    rw [ih _ (by omega) i j, default_fill_col_spec _ MAP_HEIGHT wm (le_refl _) i j]
    simp only [MAP_WIDTH, MAP_HEIGHT] at hn ⊢
    split_ifs <;> first | rfl | omega

theorem default_segment_spec : ∀ (n : Nat) (wm : WorldMap), n ≤ 19 →
    ∀ i j, default_segment n wm i j =
      if j = 10 ∧ 19 - n ≤ i ∧ i < 19 then ⟨1, 0⟩ else wm i j := by
  intro n
  induction n with
  | zero =>
    intro wm _ i j
    rw [if_neg (by omega)]
    rfl
  | succ n ih =>
    intro wm hn i j
    simp only [default_segment]
    rw [ih _ (by omega) i j]
    simp only [setCell]
    split_ifs <;> first | rfl | omega

/-- The two default-map passes produce `default_cell` at every cell of the
grid, whatever the map held before. -/
theorem default_map_cell (wm : WorldMap) (x y : Nat) (hx : x < MAP_WIDTH) (hy : y < MAP_HEIGHT) :
    default_segment 14 (default_fill MAP_WIDTH wm) x y = default_cell x y := by
  rw [default_segment_spec 14 _ (by omega), default_fill_spec MAP_WIDTH wm (le_refl _)]
  unfold default_cell
  simp only [MAP_WIDTH, MAP_HEIGHT] at hx hy ⊢
  split_ifs <;> first | rfl | omega

/-- When `load_map` fails, `initialize_worldMap` leaves the default map. -/
theorem initialize_worldMap_of_failed (file : Option (List Nat)) (wm : WorldMap)
    (hf : (load_map file wm).1 = 0) (x y : Nat) (hx : x < MAP_WIDTH) (hy : y < MAP_HEIGHT) :
    initialize_worldMap file wm x y = default_cell x y := by
  unfold initialize_worldMap
  simp only [hf, if_true]
  exact default_map_cell _ x y hx hy

/-! ## C2: the bounds check of the top-down requests -/

/-- The requests with a sufficient check: `initiate_move_forward` and
`initiate_move_backward` test all four bounds, and `initiate_move_up` changes
only `newY` downwards, so its test `newY >= 0` is the one bound that can fail
from a cell of the grid.  Each of them rejects such a target without reading
the map. -/
theorem checked_requests_reject_outside (m : WorldMap) (s : State) (t : Nat) :
    (¬ (0 ≤ (forward_target s).1 ∧ (forward_target s).1 < MAP_WIDTH ∧
        0 ≤ (forward_target s).2 ∧ (forward_target s).2 < MAP_HEIGHT) →
      initiate_move_forward m s t = some s) ∧
    (¬ (0 ≤ (backward_target s).1 ∧ (backward_target s).1 < MAP_WIDTH ∧
        0 ≤ (backward_target s).2 ∧ (backward_target s).2 < MAP_HEIGHT) →
      initiate_move_backward m s t = some s) ∧
    (s.gridY - 1 < 0 → initiate_move_up m s t = some s) := by
  refine ⟨?_, ?_, ?_⟩
  · intro h
    unfold initiate_move_forward move_checked
    split_ifs <;> rfl
  · intro h
    unfold initiate_move_backward move_checked
    split_ifs <;> rfl
  · intro h
    unfold initiate_move_up move_topdown
    split_ifs with h1 h2
    · omega
    · rfl
    · rfl

/-- C2 (the code at the failing inputs): on the all-Floor map, from an Idle
state on the last row a `initiate_move_down` request, from an Idle state in the
last column a `initiate_move_right` request and from an Idle state in column 0
a `initiate_move_left` request each pass the only check `newY >= 0` and read
`worldMap[newX][newY]` outside the array bounds.  The last row is reached from
the initial state by eleven accepted `initiate_move_down` requests, each
followed by an `update_movement` 200 ticks later. -/
theorem topdown_request_reads_outside_grid :
    initiate_move_down (fun _ _ => ⟨0, 0⟩) { init_state with gridY := 23 } 0 = none ∧
    initiate_move_right (fun _ _ => ⟨0, 0⟩) { init_state with gridX := 29 } 0 = none ∧
    initiate_move_left (fun _ _ => ⟨0, 0⟩) { init_state with gridX := 0 } 0 = none ∧
    (run (fun _ _ => ⟨0, 0⟩) init_state
      ((List.range 11).flatMap fun k =>
        [Action.move .down (400 * k), Action.update_movement (400 * k + 200)])).map
      (fun s => (s.gridX, s.gridY, s.isMoving, s.isRotating)) = some (12, 23, 0, 0) ∧
    run (fun _ _ => ⟨0, 0⟩) init_state
      (((List.range 11).flatMap fun k =>
        [Action.move .down (400 * k), Action.update_movement (400 * k + 200)]) ++
        [Action.move .down 4400]) = none := by
  refine ⟨by decide, by decide, by decide, by decide!, by decide!⟩

/-! ## C4: the map file round trip -/

/-- C4: for every grid and every prior content of `worldMap`, the file
`write_map grid` has 1440 bytes, holds the tile byte and the event byte of the
cell `(x, y)` at the offsets `2 * (y * 30 + x)` and `2 * (y * 30 + x) + 1`, and
`load_map` on it returns 1 and leaves `worldMap[x][y]` equal to `grid x y`, hence
with the same tile type, texture index, event type and event id, for every cell
`(x, y)` of the 30x24 grid.  More generally `load_map` on any file of at least
1440 bytes takes the cell `(x, y)` from those two offsets. -/
theorem load_map_round_trip (grid worldMap : WorldMap) (x y : Nat)
    (hx : x < MAP_WIDTH) (hy : y < MAP_HEIGHT) :
    ((write_map grid).length = 1440 ∧
      (write_map grid)[2 * (y * 30 + x)]? = some (grid x y).tileByte ∧
      (write_map grid)[2 * (y * 30 + x) + 1]? = some (grid x y).eventByte) ∧
    ((load_map (some (write_map grid)) worldMap).1 = 1 ∧
      (load_map (some (write_map grid)) worldMap).2 x y = grid x y) ∧
    (get_tile_type ((load_map (some (write_map grid)) worldMap).2 x y) = get_tile_type (grid x y) ∧
      get_texture_index ((load_map (some (write_map grid)) worldMap).2 x y) =
        get_texture_index (grid x y) ∧
      get_event_type ((load_map (some (write_map grid)) worldMap).2 x y) =
        get_event_type (grid x y) ∧
      get_event_id ((load_map (some (write_map grid)) worldMap).2 x y) =
        get_event_id (grid x y)) ∧
    (∀ bytes : List Nat, 1440 ≤ bytes.length →
      (load_map (some bytes) worldMap).1 = 1 ∧
      (load_map (some bytes) worldMap).2 x y =
        ⟨bytes.getD (2 * (y * 30 + x)) 0, bytes.getD (2 * (y * 30 + x) + 1) 0⟩) := by
  have hlen := write_map_length grid
  have ht := write_map_getElem? grid x y 0 hx hy (by norm_num)
  have he := write_map_getElem? grid x y 1 hx hy (by norm_num)
  simp only [MAP_WIDTH, MAP_HEIGHT, Nat.add_zero] at hlen ht he
  have ht : (write_map grid)[2 * (y * 30 + x)]? = some (grid x y).tileByte := by
    simpa using ht
  have he : (write_map grid)[2 * (y * 30 + x) + 1]? = some (grid x y).eventByte := by
    simpa using he
  obtain ⟨h1, h2⟩ := load_map_long (write_map grid) worldMap (by rw [write_map_length])
  have hcell : (load_map (some (write_map grid)) worldMap).2 x y = grid x y := by
    rw [h2 x y hx hy]
    simp only [List.getD_eq_getElem?_getD, MAP_WIDTH]
    rw [ht, he]
    rfl
  refine ⟨⟨by rw [hlen], ht, he⟩, ⟨h1, hcell⟩, ?_, ?_⟩
  · rw [hcell]
    exact ⟨rfl, rfl, rfl, rfl⟩
  · intro bytes hb
    obtain ⟨g1, g2⟩ := load_map_long bytes worldMap (by simp only [MAP_WIDTH, MAP_HEIGHT]; omega)
    exact ⟨g1, g2 x y hx hy⟩

/-- C4 on the grid whose cell `(x, y)` holds the bytes `x + 64` and `y`, loaded
over an all-zero map, at the cell `(3, 2)`. -/
theorem load_map_round_trip_witness :
    (3 < MAP_WIDTH ∧ 2 < MAP_HEIGHT) ∧
    (load_map (some (write_map fun x y => ⟨x + 64, y⟩)) (fun _ _ => ⟨0, 0⟩)).1 = 1 ∧
    (load_map (some (write_map fun x y => ⟨x + 64, y⟩)) (fun _ _ => ⟨0, 0⟩)).2 3 2 = ⟨67, 2⟩ :=
  ⟨⟨by decide, by decide⟩,
   (load_map_round_trip (fun x y => ⟨x + 64, y⟩) (fun _ _ => ⟨0, 0⟩) 3 2
      (by decide) (by decide)).2.1⟩

/-! ## C5: no partial load -/

/-- C5: for every file, every prior content of `worldMap` and every cell
`(x, y)` of the grid: when the file is missing or shorter than 1440 bytes,
`load_map` returns 0 and `initialize_worldMap` leaves `default_cell x y` in the
cell, whatever the file and the map held; when the file has at least 1440
bytes, `load_map` returns 1 and `initialize_worldMap` leaves in the cell the two
bytes at the offsets `2 * (y * 30 + x)` and `2 * (y * 30 + x) + 1` of the file. -/
theorem load_all_or_default (file : Option (List Nat)) (worldMap : WorldMap) (x y : Nat)
    (hx : x < MAP_WIDTH) (hy : y < MAP_HEIGHT) :
    match file with
    | none =>
      (load_map none worldMap).1 = 0 ∧ initialize_worldMap none worldMap x y = default_cell x y
    | some bytes =>
      if bytes.length < 1440 then
        (load_map (some bytes) worldMap).1 = 0 ∧
        initialize_worldMap (some bytes) worldMap x y = default_cell x y
      else
        (load_map (some bytes) worldMap).1 = 1 ∧
        initialize_worldMap (some bytes) worldMap x y =
          ⟨bytes.getD (2 * (y * 30 + x)) 0, bytes.getD (2 * (y * 30 + x) + 1) 0⟩ := by
  have hdef : ∀ f : Option (List Nat), (load_map f worldMap).1 = 0 →
      initialize_worldMap f worldMap x y = default_cell x y :=
    fun f hf => initialize_worldMap_of_failed f worldMap hf x y hx hy
  cases file with
  | none =>
    have h0 := load_map_short none worldMap (by intro b hb; cases hb)
    exact ⟨h0, hdef none h0⟩
  | some bytes =>
    simp only
    split
    · rename_i hlt
      have h0 := load_map_short (some bytes) worldMap (by
        intro b hb
        cases hb
        simp only [MAP_WIDTH, MAP_HEIGHT]
        omega)
      exact ⟨h0, hdef _ h0⟩
    · rename_i hge
      obtain ⟨g1, g2⟩ := load_map_long bytes worldMap
        (by simp only [MAP_WIDTH, MAP_HEIGHT]; omega)
      refine ⟨g1, ?_⟩
      unfold initialize_worldMap
      simp only [g1]
      exact g2 x y hx hy

/-- C5 on a file of three bytes loaded over a map that held walls everywhere:
`load_map` returns 0 and the cell `(0, 0)`, which the loader had overwritten
with the first two bytes, holds the default cell again. -/
theorem load_all_or_default_witness :
    (0 < MAP_WIDTH ∧ 0 < MAP_HEIGHT) ∧
    (load_map (some [0x47, 0x21, 0x48]) (fun _ _ => ⟨0x40, 0⟩)).2 0 0 = ⟨0x47, 0x21⟩ ∧
    (load_map (some [0x47, 0x21, 0x48]) (fun _ _ => ⟨0x40, 0⟩)).1 = 0 ∧
    initialize_worldMap (some [0x47, 0x21, 0x48]) (fun _ _ => ⟨0x40, 0⟩) 0 0 = default_cell 0 0 :=
  ⟨⟨by decide, by decide⟩, by decide!,
   load_all_or_default (some [0x47, 0x21, 0x48]) (fun _ _ => ⟨0x40, 0⟩) 0 0
     (by decide) (by decide)⟩

/-! ## C6: the tile types of the default map -/

/-- C6 (the code on a missing map file): whatever `worldMap` held, after
`initialize_worldMap` the border cell `(0, 0)` and the segment cell `(5, 10)`
hold tile byte 1, which `get_tile_type` decodes as 0 (Floor) with texture
index 1, not as 1 (Wall). -/
theorem default_border_decodes_as_floor (worldMap : WorldMap) :
    (initialize_worldMap none worldMap 0 0).tileByte = 1 ∧
    get_tile_type (initialize_worldMap none worldMap 0 0) = 0 ∧
    get_texture_index (initialize_worldMap none worldMap 0 0) = 1 ∧
    (initialize_worldMap none worldMap 5 10).tileByte = 1 ∧
    get_tile_type (initialize_worldMap none worldMap 5 10) = 0 := by
  have hf : (load_map none worldMap).1 = 0 := rfl
  have h0 : initialize_worldMap none worldMap 0 0 = default_cell 0 0 :=
    initialize_worldMap_of_failed none worldMap hf 0 0 (by decide) (by decide)
  have h1 : initialize_worldMap none worldMap 5 10 = default_cell 5 10 :=
    initialize_worldMap_of_failed none worldMap hf 5 10 (by decide) (by decide)
  rw [h0, h1]
  decide

/-! ## C7: the update after an accepted move -/

theorem move_checked_cases (m : WorldMap) (s s1 : State) (x y : Int) (t : Nat)
    (h : move_checked m s x y t = some s1) : s1 = s ∨ s1 = begin_move s x y t := by
  unfold move_checked at h
  split at h
  · split at h
    · cases h
    · simp only at h
      split at h
      · exact Or.inr (Option.some.inj h).symm
      · exact Or.inl (Option.some.inj h).symm
  · exact Or.inl (Option.some.inj h).symm

theorem move_topdown_cases (m : WorldMap) (s s1 : State) (x y : Int) (t : Nat)
    (h : move_topdown m s x y t = some s1) : s1 = s ∨ s1 = begin_move s x y t := by
  unfold move_topdown at h
  split at h
  · split at h
    · cases h
    · simp only at h
      split at h
      · exact Or.inr (Option.some.inj h).symm
      · exact Or.inl (Option.some.inj h).symm
  · exact Or.inl (Option.some.inj h).symm

/-- A move request either returns the state it was given, or it was issued from
Idle and returns `begin_move` at its target cell. -/
theorem apply_cases (r : MoveRequest) (m : WorldMap) (s s1 : State) (t : Nat)
    (h : r.apply m s t = some s1) :
    s1 = s ∨ ((s.isMoving = 0 ∧ s.isRotating = 0) ∧
      s1 = begin_move s (r.target s).1 (r.target s).2 t) := by
  by_cases hidle : s.isMoving = 0 ∧ s.isRotating = 0
  · cases r <;>
      simp only [MoveRequest.apply, initiate_move_forward, initiate_move_backward,
        initiate_move_up, initiate_move_down, initiate_move_left, initiate_move_right,
        if_pos hidle] at h
    · rcases move_checked_cases _ _ _ _ _ _ h with h | h
      · exact Or.inl h
      · exact Or.inr ⟨hidle, h⟩
    · rcases move_checked_cases _ _ _ _ _ _ h with h | h
      · exact Or.inl h
      · exact Or.inr ⟨hidle, h⟩
    · rcases move_topdown_cases _ _ _ _ _ _ h with h | h
      · exact Or.inl h
      · exact Or.inr ⟨hidle, h⟩
    · rcases move_topdown_cases _ _ _ _ _ _ h with h | h
      · exact Or.inl h
      · exact Or.inr ⟨hidle, h⟩
    · rcases move_topdown_cases _ _ _ _ _ _ h with h | h
      · exact Or.inl h
      · exact Or.inr ⟨hidle, h⟩
    · rcases move_topdown_cases _ _ _ _ _ _ h with h | h
      · exact Or.inl h
      · exact Or.inr ⟨hidle, h⟩
  · cases r <;>
      simp only [MoveRequest.apply, initiate_move_forward, initiate_move_backward,
        initiate_move_up, initiate_move_down, initiate_move_left, initiate_move_right,
        if_neg hidle] at h <;>
      exact Or.inl (Option.some.inj h).symm

theorem u32_sub_add (st e : Nat) (he : e < 2 ^ 32) :
    u32_sub ((st + e) % 2 ^ 32) st = e := by
  unfold u32_sub
  norm_num at he ⊢
  omega

theorem duration_elapsed_iff (e : Nat) : (e : ℚ) / ((200 : ℕ) : ℚ) ≥ 1 ↔ 200 ≤ e := by
  rw [ge_iff_le, le_div_iff₀ (by norm_num : (0 : ℚ) < ((200 : ℕ) : ℚ)), one_mul]
  exact Nat.cast_le

theorem M_PI_pos : 0 < M_PI := by
  unfold M_PI
  norm_num

theorem wrap_angle_range (a : ℚ) (h1 : -(2 * M_PI) ≤ a) (h2 : a < 4 * M_PI) :
    0 ≤ wrap_angle a ∧ wrap_angle a < 2 * M_PI := by
  have hpi := M_PI_pos
  unfold wrap_angle
  simp only
  split_ifs <;> constructor <;> linarith

/-- One `update_rotation` keeps the angle in `[0, 2 * M_PI)`. -/
theorem rotation_step_range (s : State) (t : Nat)
    (hd : 0 ≤ s.dirAngle ∧ s.dirAngle < 2 * M_PI)
    (hr : s.isRotating ≠ 0 → (0 ≤ s.startAngle ∧ s.startAngle < 2 * M_PI) ∧
      (s.targetAngle = s.startAngle - M_PI / 2 ∨ s.targetAngle = s.startAngle + M_PI / 2)) :
    0 ≤ (update_rotation s t).dirAngle ∧ (update_rotation s t).dirAngle < 2 * M_PI := by
  have hpi := M_PI_pos
  unfold update_rotation
  split
  · rename_i hrot
    obtain ⟨hs, htgt⟩ := hr hrot
    simp only
    split
    · apply wrap_angle_range <;> rcases htgt with h | h <;> rw [h] <;> linarith
    · rename_i hlt
      have ht1 : (u32_sub t s.rotateStartTime : ℚ) / (ROTATE_DURATION : ℚ) < 1 := lt_of_not_ge hlt
      have ht0 : 0 ≤ (u32_sub t s.rotateStartTime : ℚ) / (ROTATE_DURATION : ℚ) :=
        div_nonneg (Nat.cast_nonneg _) (Nat.cast_nonneg _)
      have hq : 0 ≤ M_PI / 2 * ((u32_sub t s.rotateStartTime : ℚ) / (ROTATE_DURATION : ℚ)) :=
        mul_nonneg (by linarith) ht0
      have hq1 : M_PI / 2 * ((u32_sub t s.rotateStartTime : ℚ) / (ROTATE_DURATION : ℚ)) ≤ M_PI / 2 :=
        mul_le_of_le_one_right (by linarith) ht1.le
      apply wrap_angle_range <;> rcases htgt with h | h <;> rw [h] <;> linarith
  · exact hd

/-! ## Invariants along a run -/

/-- A property kept by every call is kept by every run. -/
theorem run_invariant (P : State → Prop) (m : WorldMap)
    (hstep : ∀ s a s1, P s → step m s a = some s1 → P s1) :
    ∀ (acts : List Action) (s s1 : State), P s → run m s acts = some s1 → P s1 := by
  intro acts
  induction acts with
  | nil =>
    intro s s1 hs h
    cases h
    exact hs
  | cons a rest ih =>
    intro s s1 hs h
    simp only [run] at h
    split at h
    · cases h
    · rename_i s2 hs2
      exact ih s2 s1 (hstep s a s2 hs hs2) h

theorem rotation_inv_step (m : WorldMap) (s : State) (a : Action) (s1 : State)
    (hs : rotation_inv s) (h : step m s a = some s1) : rotation_inv s1 := by
  cases a with
  | move r t =>
    simp only [step] at h
    rcases apply_cases r m s s1 t h with h1 | ⟨_, h1⟩
    · rw [h1]; exact hs
    · rw [h1]; exact hs
  | turn_left t =>
    simp only [step] at h
    cases h
    unfold initiate_turn_left
    split
    · exact ⟨hs.1, fun _ => ⟨hs.1, Or.inl rfl⟩⟩
    · exact hs
  | turn_right t =>
    simp only [step] at h
    cases h
    unfold initiate_turn_right
    split
    · exact ⟨hs.1, fun _ => ⟨hs.1, Or.inr rfl⟩⟩
    · exact hs
  | update_movement t =>
    simp only [step] at h
    cases h
    unfold update_movement
    split
    · simp only
      split <;> exact hs
    · exact hs
  | update_rotation t =>
    simp only [step] at h
    cases h
    refine ⟨rotation_step_range s t hs.1 hs.2, ?_⟩
    unfold update_rotation
    split
    · simp only
      split
      · intro hc
        exact absurd rfl hc
      · exact hs.2
    · exact hs.2

theorem anim_inv_step (m : WorldMap) (s : State) (a : Action) (s1 : State)
    (hs : anim_inv s) (h : step m s a = some s1) : anim_inv s1 := by
  cases a with
  | move r t =>
    simp only [step] at h
    rcases apply_cases r m s s1 t h with h1 | ⟨hidle, h1⟩
    · rw [h1]; exact hs
    · rw [h1]
      exact Or.inr (Or.inl ⟨rfl, hidle.2⟩)
  | turn_left t =>
    simp only [step] at h
    cases h
    unfold initiate_turn_left
    split
    · rename_i hidle
      exact Or.inr (Or.inr ⟨hidle.1, rfl⟩)
    · exact hs
  | turn_right t =>
    simp only [step] at h
    cases h
    unfold initiate_turn_right
    split
    · rename_i hidle
      exact Or.inr (Or.inr ⟨hidle.1, rfl⟩)
    · exact hs
  | update_movement t =>
    simp only [step] at h
    cases h
    unfold update_movement
    split
    · simp only
      split
      · rcases hs with h | h | h
        · exact Or.inl ⟨rfl, h.2⟩
        · exact Or.inl ⟨rfl, h.2⟩
        · exact Or.inr (Or.inr ⟨rfl, h.2⟩)
      · exact hs
    · exact hs
  | update_rotation t =>
    simp only [step] at h
    cases h
    unfold update_rotation
    split
    · rename_i hrot
      simp only
      split
      · rcases hs with h | h | h
        · exact absurd h.2 hrot
        · exact absurd h.2 hrot
        · exact Or.inl ⟨h.1, rfl⟩
      · exact hs
    · exact hs

/-! ### The statement of C8 -/

/-- C8: from every state with no rotation running and `dirAngle` in
`[0, 2 * M_PI)` (for example 0.1), after every sequence of requests and updates
at arbitrary tick counts, turn requests and `update_rotation` calls among them,
`dirAngle` lies in `[0, 2 * M_PI)`, and so does the angle any further
`update_rotation` call leaves: the single conditional add and the single
conditional subtract of `2 * M_PI` in `update_rotation` suffice. -/
theorem rotation_wrap (m : WorldMap) (s0 s : State) (acts : List Action)
    (hrot : s0.isRotating = 0) (h0 : 0 ≤ s0.dirAngle ∧ s0.dirAngle < 2 * M_PI)
    (hrun : run m s0 acts = some s) :
    (0 ≤ s.dirAngle ∧ s.dirAngle < 2 * M_PI) ∧
    ∀ t, 0 ≤ (update_rotation s t).dirAngle ∧ (update_rotation s t).dirAngle < 2 * M_PI := by
  have hinv0 : rotation_inv s0 := ⟨h0, fun hc => absurd hrot hc⟩
  have hinv : rotation_inv s :=
    run_invariant rotation_inv m (rotation_inv_step m) acts s0 s hinv0 hrun
  exact ⟨hinv.1, fun t => rotation_step_range s t hinv.1 hinv.2⟩

/-- C8 from the angle 0.1: a left turn requested at tick 0 and updated at tick
300 ends at an angle in `[0, 2 * M_PI)`. -/
theorem rotation_wrap_witness :
    run (fun _ _ => ⟨0, 0⟩) { init_state with dirAngle := 0.1 }
        [.turn_left 0, .update_rotation 300] =
      some (update_rotation (initiate_turn_left { init_state with dirAngle := 0.1 } 0) 300) ∧
    0 ≤ (update_rotation (initiate_turn_left { init_state with dirAngle := 0.1 } 0) 300).dirAngle ∧
    (update_rotation (initiate_turn_left { init_state with dirAngle := 0.1 } 0) 300).dirAngle <
      2 * M_PI :=
  ⟨rfl,
   (rotation_wrap (fun _ _ => ⟨0, 0⟩) { init_state with dirAngle := 0.1 }
      (update_rotation (initiate_turn_left { init_state with dirAngle := 0.1 } 0) 300)
      [.turn_left 0, .update_rotation 300] rfl
      (by constructor <;> norm_num [M_PI]) rfl).1⟩

/-! ## C9: one animation at a time -/

/-- Inside the array bounds `worldMapRead` is the read of the array. -/
theorem worldMapRead_of_some (outside : Int → Int → Cell) (m : WorldMap) (x y : Int) (c : Cell)
    (h : worldMapAt m x y = some c) : worldMapRead outside m x y = c := by
  unfold worldMapRead
  rw [h]

/-- Where `move_checked` has a result, `move_checked_any` has the same. -/
theorem move_checked_any_of (outside : Int → Int → Cell) (m : WorldMap) (s s1 : State)
    (newX newY : Int) (t : Nat) (h : move_checked m s newX newY t = some s1) :
    move_checked_any outside m s newX newY t = s1 := by
  unfold move_checked at h
  unfold move_checked_any
  split at h
  · rename_i hb
    rw [if_pos hb]
    split at h
    · cases h
    · rename_i c hc
      rw [worldMapRead_of_some outside m _ _ c hc]
      simp only at h ⊢
      split at h
      · rename_i hw
        rw [if_pos hw]
        exact Option.some.inj h
      · rename_i hw
        rw [if_neg hw]
        exact Option.some.inj h
  · rename_i hb
    rw [if_neg hb]
    exact Option.some.inj h

/-- Where `move_topdown` has a result, `move_topdown_any` has the same. -/
theorem move_topdown_any_of (outside : Int → Int → Cell) (m : WorldMap) (s s1 : State)
    (newX newY : Int) (t : Nat) (h : move_topdown m s newX newY t = some s1) :
    move_topdown_any outside m s newX newY t = s1 := by
  unfold move_topdown at h
  unfold move_topdown_any
  split at h
  · rename_i hb
    rw [if_pos hb]
    split at h
    · cases h
    · rename_i c hc
      rw [worldMapRead_of_some outside m _ _ c hc]
      simp only at h ⊢
      split at h
      · rename_i hw
        rw [if_pos hw]
        exact Option.some.inj h
      · rename_i hw
        rw [if_neg hw]
        exact Option.some.inj h
  · rename_i hb
    rw [if_neg hb]
    exact Option.some.inj h

/-- A request that performs no read outside the array has the same result with
the read `worldMapRead`. -/
theorem apply_any_of_apply (outside : Int → Int → Cell) (r : MoveRequest) (m : WorldMap)
    (s s1 : State) (t : Nat) (h : r.apply m s t = some s1) : r.apply_any outside m s t = s1 := by
  unfold MoveRequest.apply_any
  by_cases hidle : s.isMoving = 0 ∧ s.isRotating = 0
  · rw [if_pos hidle]
    cases r <;>
      simp only [MoveRequest.apply, initiate_move_forward, initiate_move_backward,
        initiate_move_up, initiate_move_down, initiate_move_left, initiate_move_right,
        if_pos hidle] at h <;>
      first
        | exact move_checked_any_of outside m s s1 _ _ t h
        | exact move_topdown_any_of outside m s s1 _ _ t h
  · rw [if_neg hidle]
    cases r <;>
      simp only [MoveRequest.apply, initiate_move_forward, initiate_move_backward,
        initiate_move_up, initiate_move_down, initiate_move_left, initiate_move_right,
        if_neg hidle] at h <;>
      exact (Option.some.inj h)

/-- A call that performs no read outside the array has the same result with the
read `worldMapRead`. -/
theorem step_any_of_step (outside : Int → Int → Cell) (m : WorldMap) (s s1 : State) (a : Action)
    (h : step m s a = some s1) : step_any outside m s a = s1 := by
  cases a with
  | move r t => exact apply_any_of_apply outside r m s s1 t h
  | turn_left t => exact Option.some.inj h
  | turn_right t => exact Option.some.inj h
  | update_movement t => exact Option.some.inj h
  | update_rotation t => exact Option.some.inj h

/-- A run that performs no read outside the array has the same result with the
read `worldMapRead`, whatever the memory outside the array holds. -/
theorem run_any_of_run (m : WorldMap) :
    ∀ (acts : List Action) (outside : Nat → Int → Int → Cell) (s s1 : State),
      run m s acts = some s1 → run_any outside m s acts = s1 := by
  intro acts
  induction acts with
  | nil =>
    intro outside s s1 h
    exact Option.some.inj h
  | cons a rest ih =>
    intro outside s s1 h
    simp only [run] at h
    split at h
    · cases h
    · rename_i s2 hs2
      simp only [run_any]
      rw [step_any_of_step (outside 0) m s s2 a hs2]
      exact ih _ s2 s1 h

/-- With the read `worldMapRead` a move request leaves the state as it is or,
from Idle, makes the assignments of an accepted move to its target. -/
theorem apply_any_cases (outside : Int → Int → Cell) (r : MoveRequest) (m : WorldMap)
    (s : State) (t : Nat) :
    r.apply_any outside m s t = s ∨
      ((s.isMoving = 0 ∧ s.isRotating = 0) ∧
        r.apply_any outside m s t = begin_move s (r.target s).1 (r.target s).2 t) := by
  unfold MoveRequest.apply_any
  by_cases hidle : s.isMoving = 0 ∧ s.isRotating = 0
  · rw [if_pos hidle]
    cases r <;> simp only [move_checked_any, move_topdown_any, MoveRequest.target] <;>
      split_ifs <;> first | exact Or.inl rfl | exact Or.inr ⟨hidle, rfl⟩
  · rw [if_neg hidle]
    exact Or.inl rfl

/-- Every call keeps the animation state one of Idle, Moving, Rotating, also
when it reads outside the array. -/
theorem anim_inv_step_any (outside : Int → Int → Cell) (m : WorldMap) (s : State) (a : Action)
    (hs : anim_inv s) : anim_inv (step_any outside m s a) := by
  cases a with
  | move r t =>
    simp only [step_any]
    rcases apply_any_cases outside r m s t with h1 | ⟨hidle, h1⟩
    · rw [h1]; exact hs
    · rw [h1]
      exact Or.inr (Or.inl ⟨rfl, hidle.2⟩)
  | turn_left t => exact anim_inv_step m s (.turn_left t) _ hs rfl
  | turn_right t => exact anim_inv_step m s (.turn_right t) _ hs rfl
  | update_movement t => exact anim_inv_step m s (.update_movement t) _ hs rfl
  | update_rotation t => exact anim_inv_step m s (.update_rotation t) _ hs rfl

/-- A property kept by every call, whatever a read outside the array delivers,
is kept by every run. -/
theorem run_any_invariant (P : State → Prop) (m : WorldMap)
    (hstep : ∀ (outside : Int → Int → Cell) (s : State) (a : Action),
      P s → P (step_any outside m s a)) :
    ∀ (acts : List Action) (outside : Nat → Int → Int → Cell) (s : State),
      P s → P (run_any outside m s acts) := by
  intro acts
  induction acts with
  | nil =>
    intro outside s hs
    exact hs
  | cons a rest ih =>
    intro outside s hs
    simp only [run_any]
    exact ih _ _ (hstep (outside 0) s a hs)

/-- C9: in every state reached from a state with `isMoving = 0` and
`isRotating = 0` by any sequence of the eight requests and of `update_movement`
and `update_rotation` calls at any tick counts, the flags are those of Idle
(0, 0), Moving (1, 0) or Rotating (0, 1); they are never both set.  The
sequences in which a top-down request reads outside the array are included:
the state is that of `run_any`, for every content `outside` of the memory
outside the array, and it is the state of `run` whenever `run` has one. -/
theorem one_animation_at_a_time (outside : Nat → Int → Int → Cell) (m : WorldMap) (s0 : State)
    (acts : List Action) (h0 : s0.isMoving = 0 ∧ s0.isRotating = 0) :
    (((run_any outside m s0 acts).isMoving = 0 ∧ (run_any outside m s0 acts).isRotating = 0) ∨
      ((run_any outside m s0 acts).isMoving = 1 ∧ (run_any outside m s0 acts).isRotating = 0) ∨
      ((run_any outside m s0 acts).isMoving = 0 ∧ (run_any outside m s0 acts).isRotating = 1)) ∧
    ¬ ((run_any outside m s0 acts).isMoving ≠ 0 ∧ (run_any outside m s0 acts).isRotating ≠ 0) ∧
    (∀ s : State, run m s0 acts = some s → run_any outside m s0 acts = s) := by
  have hinv : anim_inv (run_any outside m s0 acts) :=
    run_any_invariant anim_inv m (fun o s a hs => anim_inv_step_any o m s a hs) acts outside s0
      (Or.inl h0)
  refine ⟨hinv, ?_, fun s hs => run_any_of_run m acts outside s0 s hs⟩
  rintro ⟨hm, hr⟩
  rcases hinv with h | h | h
  · exact hm h.1
  · exact hr h.2
  · exact hm h.1

/-- C9 from the initial state on the all-Floor map: eleven accepted move-down
requests, each completed by `update_movement`, bring the player to row 23; the
twelfth reads `worldMap[12][24]`, outside the array, so `run` has no state.
With a Floor cell in the memory there the request is accepted (row 24), the
turn request that follows is ignored, and the state is Moving and not
Rotating. -/
theorem one_animation_at_a_time_witness :
    run (fun _ _ => ⟨0, 0⟩) init_state
      [.move .down 0, .update_movement 200, .move .down 200, .update_movement 400,
       .move .down 400, .update_movement 600, .move .down 600, .update_movement 800,
       .move .down 800, .update_movement 1000, .move .down 1000, .update_movement 1200,
       .move .down 1200, .update_movement 1400, .move .down 1400, .update_movement 1600,
       .move .down 1600, .update_movement 1800, .move .down 1800, .update_movement 2000,
       .move .down 2000, .update_movement 2200, .move .down 2200, .turn_left 2300] = none ∧
    (run_any (fun _ _ _ => ⟨0, 0⟩) (fun _ _ => ⟨0, 0⟩) init_state
      [.move .down 0, .update_movement 200, .move .down 200, .update_movement 400,
       .move .down 400, .update_movement 600, .move .down 600, .update_movement 800,
       .move .down 800, .update_movement 1000, .move .down 1000, .update_movement 1200,
       .move .down 1200, .update_movement 1400, .move .down 1400, .update_movement 1600,
       .move .down 1600, .update_movement 1800, .move .down 1800, .update_movement 2000,
       .move .down 2000, .update_movement 2200, .move .down 2200, .turn_left 2300]).gridY = 24 ∧
    (run_any (fun _ _ _ => ⟨0, 0⟩) (fun _ _ => ⟨0, 0⟩) init_state
      [.move .down 0, .update_movement 200, .move .down 200, .update_movement 400,
       .move .down 400, .update_movement 600, .move .down 600, .update_movement 800,
       .move .down 800, .update_movement 1000, .move .down 1000, .update_movement 1200,
       .move .down 1200, .update_movement 1400, .move .down 1400, .update_movement 1600,
       .move .down 1600, .update_movement 1800, .move .down 1800, .update_movement 2000,
       .move .down 2000, .update_movement 2200, .move .down 2200, .turn_left 2300]).isMoving = 1 ∧
    ¬ ((run_any (fun _ _ _ => ⟨0, 0⟩) (fun _ _ => ⟨0, 0⟩) init_state
      [.move .down 0, .update_movement 200, .move .down 200, .update_movement 400,
       .move .down 400, .update_movement 600, .move .down 600, .update_movement 800,
       .move .down 800, .update_movement 1000, .move .down 1000, .update_movement 1200,
       .move .down 1200, .update_movement 1400, .move .down 1400, .update_movement 1600,
       .move .down 1600, .update_movement 1800, .move .down 1800, .update_movement 2000,
       .move .down 2000, .update_movement 2200, .move .down 2200, .turn_left 2300]).isMoving ≠ 0 ∧
      (run_any (fun _ _ _ => ⟨0, 0⟩) (fun _ _ => ⟨0, 0⟩) init_state
      [.move .down 0, .update_movement 200, .move .down 200, .update_movement 400,
       .move .down 400, .update_movement 600, .move .down 600, .update_movement 800,
       .move .down 800, .update_movement 1000, .move .down 1000, .update_movement 1200,
       .move .down 1200, .update_movement 1400, .move .down 1400, .update_movement 1600,
       .move .down 1600, .update_movement 1800, .move .down 1800, .update_movement 2000,
       .move .down 2000, .update_movement 2200, .move .down 2200, .turn_left 2300]).isRotating ≠ 0) :=
  ⟨by decide!, by decide!, by decide!,
   (one_animation_at_a_time (fun _ _ _ => ⟨0, 0⟩) (fun _ _ => ⟨0, 0⟩) init_state
      [.move .down 0, .update_movement 200, .move .down 200, .update_movement 400,
       .move .down 400, .update_movement 600, .move .down 600, .update_movement 800,
       .move .down 800, .update_movement 1000, .move .down 1000, .update_movement 1200,
       .move .down 1200, .update_movement 1400, .move .down 1400, .update_movement 1600,
       .move .down 1600, .update_movement 1800, .move .down 1800, .update_movement 2000,
       .move .down 2000, .update_movement 2200, .move .down 2200, .turn_left 2300] (by decide)).2.1⟩

/-! ## C10: requests while an animation runs -/

/-- C10: in every state in which `isMoving` or `isRotating` is set, each of
the eight requests (forward, backward, up, down, left, right, turn left, turn
right) returns the state it was given: no field changes and nothing is
queued. -/
theorem busy_request_ignored (m : WorldMap) (s : State) (currentTime : Nat)
    (hbusy : s.isMoving ≠ 0 ∨ s.isRotating ≠ 0) :
    (∀ r : MoveRequest, r.apply m s currentTime = some s) ∧
    initiate_turn_left s currentTime = s ∧ initiate_turn_right s currentTime = s := by
  have hidle : ¬ (s.isMoving = 0 ∧ s.isRotating = 0) := by
    rintro ⟨h1, h2⟩
    rcases hbusy with h | h
    · exact h h1
    · exact h h2
  refine ⟨?_, ?_, ?_⟩
  · intro r
    cases r <;>
      simp only [MoveRequest.apply, initiate_move_forward, initiate_move_backward,
        initiate_move_up, initiate_move_down, initiate_move_left, initiate_move_right,
        if_neg hidle]
  · unfold initiate_turn_left
    rw [if_neg hidle]
  · unfold initiate_turn_right
    rw [if_neg hidle]

/-- C10 in the state that is rotating at the initial position: a forward
request, a move-down request and a turn request leave it unchanged. -/
theorem busy_request_ignored_witness :
    ({ init_state with isRotating := 1 } : State).isRotating ≠ 0 ∧
    initiate_move_forward (fun _ _ => ⟨0, 0⟩) { init_state with isRotating := 1 } 5 =
      some { init_state with isRotating := 1 } ∧
    initiate_move_down (fun _ _ => ⟨0, 0⟩) { init_state with isRotating := 1 } 5 =
      some { init_state with isRotating := 1 } ∧
    initiate_turn_right { init_state with isRotating := 1 } 5 =
      { init_state with isRotating := 1 } :=
  have h := busy_request_ignored (fun _ _ => ⟨0, 0⟩) { init_state with isRotating := 1 } 5
    (Or.inr (by decide))
  ⟨by decide, h.1 .forward, h.1 .down, h.2.2⟩

/-! ## C11: forward and backward requests from Idle -/

theorem and_0x40_eq_zero_iff (b : Nat) : b &&& 0x40 = 0 ↔ b / 64 % 2 = 0 := by
  have h64 : (0x40 : Nat) = 2 ^ 6 := by norm_num
  have ht : b.testBit 6 = decide (b / 64 % 2 = 1) := by
    rw [Nat.testBit_to_div_mod]
  constructor
  · intro h
    have h6 : (b &&& 0x40).testBit 6 = false := by rw [h]; simp
    rw [h64, Nat.testBit_and, Nat.testBit_two_pow_self, Bool.and_true, ht] at h6
    have h1 : ¬ (b / 64 % 2 = 1) := of_decide_eq_false h6
    omega
  · intro h
    apply Nat.eq_of_testBit_eq
    intro i
    rw [h64, Nat.testBit_and, Nat.testBit_two_pow, Nat.zero_testBit]
    by_cases hi : 6 = i
    · subst hi
      rw [ht]
      have h1 : ¬ (b / 64 % 2 = 1) := by omega
      simp [h1]
    · simp [hi]

/-- The walkability test of the raycast-mode requests is the test of the low
type bit. -/
theorem walkable_iff_low_type_bit (c : Cell) :
    (get_tile_type c = 0 ∨ get_tile_type c = 2) ↔ c.tileByte &&& 0x40 = 0 := by
  rw [and_0x40_eq_zero_iff, get_tile_type_eq]
  omega

theorem move_checked_eq (m : WorldMap) (s : State) (x y : Int) (t : Nat) :
    move_checked m s x y t =
      if (0 ≤ x ∧ x < MAP_WIDTH ∧ 0 ≤ y ∧ y < MAP_HEIGHT) ∧
          (m x.toNat y.toNat).tileByte &&& 0x40 = 0 then
        some (begin_move s x y t)
      else some s := by
  unfold move_checked
  by_cases hb : 0 ≤ x ∧ x < MAP_WIDTH ∧ 0 ≤ y ∧ y < MAP_HEIGHT
  · rw [if_pos (show x ≥ 0 ∧ x < MAP_WIDTH ∧ y ≥ 0 ∧ y < MAP_HEIGHT from hb),
      worldMapAt_inside m x y ⟨hb.1, hb.2.1⟩ ⟨hb.2.2.1, hb.2.2.2⟩]
    simp only
    by_cases hw : (m x.toNat y.toNat).tileByte &&& 0x40 = 0
    · rw [if_pos ((walkable_iff_low_type_bit _).2 hw), if_pos ⟨hb, hw⟩]
    · rw [if_neg (fun h => hw ((walkable_iff_low_type_bit _).1 h)), if_neg (fun h => hw h.2)]
  · rw [if_neg (show ¬ (x ≥ 0 ∧ x < MAP_WIDTH ∧ y ≥ 0 ∧ y < MAP_HEIGHT) from hb),
      if_neg (fun h => hb h.1)]

/-- C11: from Idle, `initiate_move_forward` computes the candidate cell
`grid + d` and `initiate_move_backward` the candidate `grid - d`, where `d` is
(+1, 0) for NORTH, (0, -1) for EAST, (-1, 0) for SOUTH and (0, +1) for WEST.
Each of the two requests returns a state; that state has `isMoving` set if and
only if the candidate is inside the 30x24 grid and bit `0x40` of its tile byte
is 0; in that case start is the current position, target is the candidate plus
0.5 in both axes, the grid position is the candidate, `isMoving` is 1,
`moveStartTime` is the request time and all other fields (facing and
`dirAngle` among them) are unchanged; otherwise the state is unchanged. -/
theorem forward_backward_from_idle (m : WorldMap) (s : State) (t : Nat)
    (hidle : s.isMoving = 0 ∧ s.isRotating = 0) :
    ((s.gridDir = .NORTH → forward_target s = (s.gridX + 1, s.gridY) ∧
        backward_target s = (s.gridX - 1, s.gridY)) ∧
      (s.gridDir = .EAST → forward_target s = (s.gridX, s.gridY - 1) ∧
        backward_target s = (s.gridX, s.gridY + 1)) ∧
      (s.gridDir = .SOUTH → forward_target s = (s.gridX - 1, s.gridY) ∧
        backward_target s = (s.gridX + 1, s.gridY)) ∧
      (s.gridDir = .WEST → forward_target s = (s.gridX, s.gridY + 1) ∧
        backward_target s = (s.gridX, s.gridY - 1))) ∧
    ∀ r : MoveRequest, r = .forward ∨ r = .backward →
      ∃ s1, r.apply m s t = some s1 ∧
        (s1.isMoving ≠ 0 ↔
          ((0 ≤ (r.target s).1 ∧ (r.target s).1 < MAP_WIDTH ∧
              0 ≤ (r.target s).2 ∧ (r.target s).2 < MAP_HEIGHT) ∧
            (m (r.target s).1.toNat (r.target s).2.toNat).tileByte &&& 0x40 = 0)) ∧
        (s1.isMoving ≠ 0 →
          s1 = { s with
            isMoving := 1
            moveStartTime := t
            startX := s.playerX
            startY := s.playerY
            targetX := ((r.target s).1 : ℚ) + 0.5
            targetY := ((r.target s).2 : ℚ) + 0.5
            gridX := (r.target s).1
            gridY := (r.target s).2 }) ∧
        (s1.isMoving = 0 → s1 = s) ∧
        s1.gridDir = s.gridDir ∧ s1.dirAngle = s.dirAngle := by
  refine ⟨?_, ?_⟩
  · refine ⟨?_, ?_, ?_, ?_⟩ <;> intro h <;> simp [forward_target, backward_target, h]
  · intro r hr
    have happly : r.apply m s t = move_checked m s (r.target s).1 (r.target s).2 t := by
      rcases hr with h | h <;> subst h <;>
        simp only [MoveRequest.apply, MoveRequest.target, initiate_move_forward,
          initiate_move_backward, if_pos hidle]
    rw [happly, move_checked_eq]
    by_cases hc : (0 ≤ (r.target s).1 ∧ (r.target s).1 < MAP_WIDTH ∧
        0 ≤ (r.target s).2 ∧ (r.target s).2 < MAP_HEIGHT) ∧
        (m (r.target s).1.toNat (r.target s).2.toNat).tileByte &&& 0x40 = 0
    · rw [if_pos hc]
      refine ⟨_, rfl, ?_, ?_, ?_, rfl, rfl⟩
      · exact ⟨fun _ => hc, fun _ => by simp [begin_move]⟩
      · intro _; rfl
      · intro h; simp [begin_move] at h
    · rw [if_neg hc]
      refine ⟨_, rfl, ?_, ?_, ?_, rfl, rfl⟩
      · exact ⟨fun h => absurd hidle.1 h, fun h => absurd h hc⟩
      · intro h; exact absurd hidle.1 h
      · intro _; rfl

/-- C11 from the initial state (facing NORTH at (12, 12)) on the all-Floor map:
the forward candidate is (13, 12), and the forward request at tick 7 is
accepted with the facing unchanged. -/
theorem forward_backward_from_idle_witness :
    (init_state.isMoving = 0 ∧ init_state.isRotating = 0) ∧
    forward_target init_state = (init_state.gridX + 1, init_state.gridY) ∧
    MoveRequest.forward.apply (fun _ _ => ⟨0, 0⟩) init_state 7 =
      some (begin_move init_state 13 12 7) ∧
    (begin_move init_state 13 12 7).gridDir = init_state.gridDir := by
  have h := forward_backward_from_idle (fun _ _ => ⟨0, 0⟩) init_state 7 (by decide)
  have hS : MoveRequest.forward.apply (fun _ _ => ⟨0, 0⟩) init_state 7 =
      some (begin_move init_state 13 12 7) := by decide!
  obtain ⟨s1, h1, _, _, _, hdir, _⟩ := h.2 .forward (Or.inl rfl)
  rw [hS] at h1
  cases h1
  exact ⟨by decide, (h.1.1 rfl).1, hS, hdir⟩

/-! ## C12: turn requests from Idle -/

theorem ofVal_val_add (d : Direction) (k : Nat) :
    (Direction.ofVal ((d.val + k) % 4)).val = (d.val + k) % 4 := by
  have h : (d.val + k) % 4 < 4 := Nat.mod_lt _ (by norm_num)
  generalize (d.val + k) % 4 = n at h
  match n, h with
  | 0, _ => rfl
  | 1, _ => rfl
  | 2, _ => rfl
  | 3, _ => rfl

theorem ofVal_val (d : Direction) : Direction.ofVal d.val = d := by
  cases d <;> rfl

theorem val_lt_four (d : Direction) : d.val < 4 := by
  cases d <;> decide

/-- A completed left turn from Idle ends Idle with the facing advanced by 1
modulo 4. -/
theorem turn_left_done_idle (s : State) (t e : Nat) (he : 200 ≤ e ∧ e < 2 ^ 32)
    (hidle : s.isMoving = 0 ∧ s.isRotating = 0) :
    ((turn_left_done s t e).isMoving = 0 ∧ (turn_left_done s t e).isRotating = 0) ∧
    (turn_left_done s t e).gridDir = Direction.ofVal ((s.gridDir.val + 1) % 4) ∧
    (turn_left_done s t e).dirAngle = wrap_angle (s.dirAngle - M_PI / 2) := by
  unfold turn_left_done initiate_turn_left
  rw [if_pos hidle]
  unfold update_rotation
  simp only
  rw [if_pos (by norm_num), u32_sub_add t e he.2,
    if_pos ((duration_elapsed_iff e).2 he.1)]
  exact ⟨⟨hidle.1, rfl⟩, rfl, rfl⟩

/-- A completed right turn from Idle ends Idle with the facing advanced by 3
modulo 4. -/
theorem turn_right_done_idle (s : State) (t e : Nat) (he : 200 ≤ e ∧ e < 2 ^ 32)
    (hidle : s.isMoving = 0 ∧ s.isRotating = 0) :
    ((turn_right_done s t e).isMoving = 0 ∧ (turn_right_done s t e).isRotating = 0) ∧
    (turn_right_done s t e).gridDir = Direction.ofVal ((s.gridDir.val + 3) % 4) ∧
    (turn_right_done s t e).dirAngle = wrap_angle (s.dirAngle + M_PI / 2) := by
  unfold turn_right_done initiate_turn_right
  rw [if_pos hidle]
  unfold update_rotation
  simp only
  rw [if_pos (by norm_num), u32_sub_add t e he.2,
    if_pos ((duration_elapsed_iff e).2 he.1)]
  exact ⟨⟨hidle.1, rfl⟩, rfl, rfl⟩

theorem ofVal_add_one_add_three (d : Direction) :
    Direction.ofVal (((Direction.ofVal ((d.val + 1) % 4)).val + 3) % 4) = d := by
  cases d <;> rfl

theorem ofVal_add_three_add_one (d : Direction) :
    Direction.ofVal (((Direction.ofVal ((d.val + 3) % 4)).val + 1) % 4) = d := by
  cases d <;> rfl

/-- C12: from Idle a turn request always succeeds.  The returned state has
`startAngle` equal to the current `dirAngle`, `targetAngle` equal to
`startAngle - M_PI / 2` for a left turn and `startAngle + M_PI / 2` for a right
turn, the facing `(gridDir + 1) mod 4` for a left turn and `(gridDir + 3) mod 4`
for a right turn, `isRotating` set, `rotateStartTime` the request time, and
`gridX`, `gridY`, `playerX`, `playerY`, `isMoving` unchanged.  A left turn
followed, once its rotation is completed, by a right turn restores the facing,
and so do a right turn followed by a left turn, four left turns and four right
turns (each turn completed by an update at least 200 ticks later). -/
theorem turn_from_idle (s : State) (t : Nat) (hidle : s.isMoving = 0 ∧ s.isRotating = 0) :
    ((initiate_turn_left s t).startAngle = s.dirAngle ∧
      (initiate_turn_left s t).targetAngle = (initiate_turn_left s t).startAngle - M_PI / 2 ∧
      (initiate_turn_left s t).gridDir.val = (s.gridDir.val + 1) % 4 ∧
      (initiate_turn_left s t).isRotating = 1 ∧
      (initiate_turn_left s t).rotateStartTime = t ∧
      (initiate_turn_left s t).gridX = s.gridX ∧ (initiate_turn_left s t).gridY = s.gridY ∧
      (initiate_turn_left s t).playerX = s.playerX ∧
      (initiate_turn_left s t).playerY = s.playerY ∧
      (initiate_turn_left s t).isMoving = s.isMoving) ∧
    ((initiate_turn_right s t).startAngle = s.dirAngle ∧
      (initiate_turn_right s t).targetAngle = (initiate_turn_right s t).startAngle + M_PI / 2 ∧
      (initiate_turn_right s t).gridDir.val = (s.gridDir.val + 3) % 4 ∧
      (initiate_turn_right s t).isRotating = 1 ∧
      (initiate_turn_right s t).rotateStartTime = t ∧
      (initiate_turn_right s t).gridX = s.gridX ∧ (initiate_turn_right s t).gridY = s.gridY ∧
      (initiate_turn_right s t).playerX = s.playerX ∧
      (initiate_turn_right s t).playerY = s.playerY ∧
      (initiate_turn_right s t).isMoving = s.isMoving) ∧
    (∀ e t2 : Nat, 200 ≤ e ∧ e < 2 ^ 32 →
      (initiate_turn_right (turn_left_done s t e) t2).gridDir = s.gridDir ∧
      (initiate_turn_left (turn_right_done s t e) t2).gridDir = s.gridDir) ∧
    (∀ e1 t2 e2 t3 e3 t4 : Nat,
      (200 ≤ e1 ∧ e1 < 2 ^ 32) ∧ (200 ≤ e2 ∧ e2 < 2 ^ 32) ∧ (200 ≤ e3 ∧ e3 < 2 ^ 32) →
      (initiate_turn_left
        (turn_left_done (turn_left_done (turn_left_done s t e1) t2 e2) t3 e3) t4).gridDir =
        s.gridDir ∧
      (initiate_turn_right
        (turn_right_done (turn_right_done (turn_right_done s t e1) t2 e2) t3 e3) t4).gridDir =
        s.gridDir) := by
  refine ⟨?_, ?_, ?_, ?_⟩
  · unfold initiate_turn_left
    rw [if_pos hidle]
    exact ⟨rfl, rfl, ofVal_val_add _ 1, rfl, rfl, rfl, rfl, rfl, rfl, rfl⟩
  · unfold initiate_turn_right
    rw [if_pos hidle]
    exact ⟨rfl, rfl, ofVal_val_add _ 3, rfl, rfl, rfl, rfl, rfl, rfl, rfl⟩
  · intro e t2 he
    obtain ⟨hl1, hl2, _⟩ := turn_left_done_idle s t e he hidle
    obtain ⟨hr1, hr2, _⟩ := turn_right_done_idle s t e he hidle
    constructor
    · unfold initiate_turn_right
      rw [if_pos hl1]
      simp only
      rw [hl2]
      exact ofVal_add_one_add_three _
    · unfold initiate_turn_left
      rw [if_pos hr1]
      simp only
      rw [hr2]
      exact ofVal_add_three_add_one _
  · intro e1 t2 e2 t3 e3 t4 he
    constructor
    · obtain ⟨a1, a2, _⟩ := turn_left_done_idle s t e1 he.1 hidle
      obtain ⟨b1, b2, _⟩ := turn_left_done_idle _ t2 e2 he.2.1 a1
      obtain ⟨c1, c2, _⟩ := turn_left_done_idle _ t3 e3 he.2.2 b1
      unfold initiate_turn_left
      rw [if_pos c1]
      simp only
      rw [c2, b2, a2]
      cases s.gridDir <;> rfl
    · obtain ⟨a1, a2, _⟩ := turn_right_done_idle s t e1 he.1 hidle
      obtain ⟨b1, b2, _⟩ := turn_right_done_idle _ t2 e2 he.2.1 a1
      obtain ⟨c1, c2, _⟩ := turn_right_done_idle _ t3 e3 he.2.2 b1
      unfold initiate_turn_right
      rw [if_pos c1]
      simp only
      rw [c2, b2, a2]
      cases s.gridDir <;> rfl

/-- C12 from the initial state (facing NORTH): a left turn at tick 5 sets
`isRotating` and the facing EAST, and the right turn at tick 400 after the
left turn is completed at tick 305 faces NORTH again. -/
theorem turn_from_idle_witness :
    (init_state.isMoving = 0 ∧ init_state.isRotating = 0) ∧
    (initiate_turn_left init_state 5).isRotating = 1 ∧
    (initiate_turn_left init_state 5).gridDir.val = (init_state.gridDir.val + 1) % 4 ∧
    (initiate_turn_right (turn_left_done init_state 5 300) 400).gridDir = init_state.gridDir :=
  have h := turn_from_idle init_state 5 (by decide)
  ⟨by decide, h.1.2.2.2.1, h.1.2.2.1, (h.2.2.1 300 400 (by norm_num)).1⟩

/-! ## C15: texture atlas addressing -/

/-- C15: the wall path addresses texture `i` at
`((i mod 8) * 32, (i / 8) * 32)` and the floor path, for an atlas of width
`atlasWidth` with `c = atlasWidth / 32` columns, at
`((i mod c) * 32, (i / c) * 32)` (with no result when `c = 0`).  The floor path
agrees with the wall path on every texture index 0..63 if and only if
`atlasWidth / 32 = 8`; and with 8 columns the offsets of two different indices
in 0..63 differ and both coordinates are multiples of 32 between 0 and 224. -/
theorem atlas_paths_agree_iff (atlasWidth : Nat) :
    (∀ i, wall_atlas_offset i = ((i % 8) * 32, (i / 8) * 32)) ∧
    (∀ i, atlasWidth / 32 ≠ 0 →
      floor_atlas_offset atlasWidth i =
        some ((i % (atlasWidth / 32)) * 32, (i / (atlasWidth / 32)) * 32)) ∧
    ((∀ i, i < 64 → floor_atlas_offset atlasWidth i = some (wall_atlas_offset i)) ↔
      atlasWidth / 32 = 8) ∧
    (∀ i j, i < 64 → j < 64 → wall_atlas_offset i = wall_atlas_offset j → i = j) ∧
    (∀ i, i < 64 →
      32 ∣ (wall_atlas_offset i).1 ∧ (wall_atlas_offset i).1 ≤ 224 ∧
      32 ∣ (wall_atlas_offset i).2 ∧ (wall_atlas_offset i).2 ≤ 224) := by
  refine ⟨fun i => rfl, ?_, ⟨?_, ?_⟩, ?_, ?_⟩
  · intro i hc
    unfold floor_atlas_offset
    simp only [TILE_SIZE]
    rw [if_neg hc]
  · intro h
    have h8 := h 8 (by norm_num)
    unfold floor_atlas_offset wall_atlas_offset at h8
    simp only [TILE_SIZE, ATLAS_COLUMNS] at h8
    by_cases hc : atlasWidth / 32 = 0
    · rw [if_pos hc] at h8
      cases h8
    · rw [if_neg hc] at h8
      have h8' := Option.some.inj h8
      have hx : 8 % (atlasWidth / 32) * 32 = 8 % 8 * 32 := congrArg Prod.fst h8'
      have hy : 8 / (atlasWidth / 32) * 32 = 8 / 8 * 32 := congrArg Prod.snd h8'
      norm_num at hx hy
      generalize atlasWidth / 32 = c at hc hx hy ⊢
      have hc8 : c ≤ 8 := Nat.le_of_dvd (by norm_num) (Nat.dvd_of_mod_eq_zero hx)
      interval_cases c <;> simp_all
  · intro h i _
    unfold floor_atlas_offset wall_atlas_offset
    simp only [TILE_SIZE, ATLAS_COLUMNS, h]
    rfl
  · intro i j _ _ h
    unfold wall_atlas_offset at h
    simp only [TILE_SIZE, ATLAS_COLUMNS] at h
    have hx : i % 8 * 32 = j % 8 * 32 := congrArg Prod.fst h
    have hy : i / 8 * 32 = j / 8 * 32 := congrArg Prod.snd h
    omega
  · intro i hi
    unfold wall_atlas_offset
    simp only [TILE_SIZE, ATLAS_COLUMNS]
    refine ⟨Dvd.intro_left _ rfl, ?_, Dvd.intro_left _ rfl, ?_⟩ <;> omega

/-! ## C16: discrete and continuous position -/

theorem sync_inv_step (m : WorldMap) (s : State) (a : Action) (s1 : State)
    (hs : sync_inv s) (h : step m s a = some s1) : sync_inv s1 := by
  cases a with
  | move r t =>
    simp only [step] at h
    rcases apply_cases r m s s1 t h with h1 | ⟨_, h1⟩
    · rw [h1]; exact hs
    · rw [h1]
      refine ⟨fun hc => ?_, fun _ => ⟨⟨rfl, rfl⟩, 0, le_refl _, zero_le_one, ?_, ?_⟩⟩
      · simp [begin_move] at hc
      · simp [begin_move]
      · simp [begin_move]
  | turn_left t =>
    simp only [step] at h
    cases h
    unfold initiate_turn_left
    split
    · exact hs
    · exact hs
  | turn_right t =>
    simp only [step] at h
    cases h
    unfold initiate_turn_right
    split
    · exact hs
    · exact hs
  | update_movement t =>
    simp only [step] at h
    cases h
    unfold update_movement
    split
    · rename_i hmov
      obtain ⟨htgt, _⟩ := hs.2 hmov
      simp only
      split
      · refine ⟨fun _ => htgt, fun hc => absurd rfl hc⟩
      · rename_i hlt
        refine ⟨fun hc => absurd hc hmov, fun _ => ⟨htgt, _, ?_, ?_, rfl, rfl⟩⟩
        · exact div_nonneg (Nat.cast_nonneg _) (Nat.cast_nonneg _)
        · exact (lt_of_not_ge hlt).le
    · exact hs
  | update_rotation t =>
    simp only [step] at h
    cases h
    unfold update_rotation
    split
    · simp only
      split
      · exact hs
      · exact hs
    · exact hs

/-- C16: in every state reached from a state that is not moving and has the
player at the centre of its grid cell (the initial state: grid (12, 12),
position (12.5, 12.5)) by any sequence of requests and updates: whenever
`isMoving` is clear, `(playerX, playerY) = (gridX + 0.5, gridY + 0.5)`; whenever
`isMoving` is set, `(targetX, targetY) = (gridX + 0.5, gridY + 0.5)` and
`(playerX, playerY) = start + (target - start) * l` for one `l` with
`0 ≤ l ≤ 1`. -/
theorem discrete_continuous_sync (m : WorldMap) (s0 s : State) (acts : List Action)
    (h0 : s0.isMoving = 0)
    (hpos : s0.playerX = (s0.gridX : ℚ) + 0.5 ∧ s0.playerY = (s0.gridY : ℚ) + 0.5)
    (hrun : run m s0 acts = some s) :
    (s.isMoving = 0 →
      s.playerX = (s.gridX : ℚ) + 0.5 ∧ s.playerY = (s.gridY : ℚ) + 0.5) ∧
    (s.isMoving ≠ 0 →
      (s.targetX = (s.gridX : ℚ) + 0.5 ∧ s.targetY = (s.gridY : ℚ) + 0.5) ∧
      ∃ l : ℚ, 0 ≤ l ∧ l ≤ 1 ∧
        s.playerX = s.startX + (s.targetX - s.startX) * l ∧
        s.playerY = s.startY + (s.targetY - s.startY) * l) :=
  run_invariant sync_inv m (sync_inv_step m) acts s0 s
    ⟨fun _ => hpos, fun hc => absurd h0 hc⟩ hrun

/-- C16 from the initial state on the all-Floor map: after a forward request at
tick 0 and an update at tick 100 the state is Moving, the target is the centre
of the new grid cell (13, 12) and the player is at (13, 12.5), halfway. -/
theorem discrete_continuous_sync_witness :
    run (fun _ _ => ⟨0, 0⟩) init_state [.move .forward 0, .update_movement 100] =
      some (update_movement (begin_move init_state 13 12 0) 100) ∧
    (update_movement (begin_move init_state 13 12 0) 100).isMoving ≠ 0 ∧
    (update_movement (begin_move init_state 13 12 0) 100).playerX = 13 ∧
    (update_movement (begin_move init_state 13 12 0) 100).targetX =
      ((update_movement (begin_move init_state 13 12 0) 100).gridX : ℚ) + 0.5 :=
  ⟨by decide!, by decide!, by decide!,
   ((discrete_continuous_sync (fun _ _ => ⟨0, 0⟩) init_state
      (update_movement (begin_move init_state 13 12 0) 100)
      [.move .forward 0, .update_movement 100] (by decide) (by decide!) (by decide!)).2
      (by decide!)).1.1⟩

/-! ## C17: the player never stands in a wall -/

/-- A raycast-mode call always returns a state, and keeps the grid cell inside
the map and walkable. -/
theorem on_walkable_step (m : WorldMap) (s : State) (a : Action)
    (ha : a.raycast_mode = true) (hs : on_walkable m s) :
    ∃ s1, step m s a = some s1 ∧ on_walkable m s1 := by
  have hmove : ∀ (x y : Int) (t : Nat),
      ∃ s1, move_checked m s x y t = some s1 ∧ on_walkable m s1 := by
    intro x y t
    rw [move_checked_eq]
    split
    · rename_i hc
      exact ⟨_, rfl, hc.1, (walkable_iff_low_type_bit _).2 hc.2⟩
    · exact ⟨_, rfl, hs⟩
  cases a with
  | move r t =>
    cases r with
    | forward =>
      simp only [step, MoveRequest.apply, initiate_move_forward]
      split
      · exact hmove _ _ t
      · exact ⟨_, rfl, hs⟩
    | backward =>
      simp only [step, MoveRequest.apply, initiate_move_backward]
      split
      · exact hmove _ _ t
      · exact ⟨_, rfl, hs⟩
    | up => cases ha
    | down => cases ha
    | left => cases ha
    | right => cases ha
  | turn_left t =>
    refine ⟨_, rfl, ?_⟩
    unfold initiate_turn_left
    split <;> exact hs
  | turn_right t =>
    refine ⟨_, rfl, ?_⟩
    unfold initiate_turn_right
    split <;> exact hs
  | update_movement t =>
    refine ⟨_, rfl, ?_⟩
    unfold update_movement
    split
    · simp only
      split <;> exact hs
    · exact hs
  | update_rotation t =>
    refine ⟨_, rfl, ?_⟩
    unfold update_rotation
    split
    · simp only
      split <;> exact hs
    · exact hs

/-- C17: for every map and every start state whose grid cell is inside the
30x24 grid and has tile type Floor or HalfFloor, every sequence of raycast-mode
calls (forward, backward, turn left, turn right, the two updates) runs to a
state, and in that state `(gridX, gridY)` is inside the grid and the tile type
of `worldMap[gridX][gridY]` is Floor or HalfFloor. -/
theorem never_in_wall (m : WorldMap) (s0 : State) (acts : List Action)
    (hacts : ∀ a ∈ acts, a.raycast_mode = true)
    (hgrid : 0 ≤ s0.gridX ∧ s0.gridX < MAP_WIDTH ∧ 0 ≤ s0.gridY ∧ s0.gridY < MAP_HEIGHT)
    (hwalk : get_tile_type (m s0.gridX.toNat s0.gridY.toNat) = 0 ∨
      get_tile_type (m s0.gridX.toNat s0.gridY.toNat) = 2) :
    ∃ s, run m s0 acts = some s ∧
      (0 ≤ s.gridX ∧ s.gridX < MAP_WIDTH ∧ 0 ≤ s.gridY ∧ s.gridY < MAP_HEIGHT) ∧
      (get_tile_type (m s.gridX.toNat s.gridY.toNat) = 0 ∨
        get_tile_type (m s.gridX.toNat s.gridY.toNat) = 2) := by
  have hgen : ∀ (acts : List Action) (s : State), (∀ a ∈ acts, a.raycast_mode = true) →
      on_walkable m s → ∃ s1, run m s acts = some s1 ∧ on_walkable m s1 := by
    intro acts
    induction acts with
    | nil =>
      intro s _ hs
      exact ⟨s, rfl, hs⟩
    | cons a rest ih =>
      intro s ha hs
      obtain ⟨s1, h1, hs1⟩ := on_walkable_step m s a (ha a (List.mem_cons_self _ _)) hs
      obtain ⟨s2, h2, hs2⟩ := ih s1 (fun b hb => ha b (List.mem_cons_of_mem _ hb)) hs1
      refine ⟨s2, ?_, hs2⟩
      simp only [run, h1]
      exact h2
  exact hgen acts s0 hacts ⟨hgrid, hwalk⟩

/-- C17 on the map whose only walkable cells are (12, 12) and (13, 12): a
forward request from the initial state is accepted and a second one, into the
wall at (14, 12), is rejected; the player ends on the walkable cell (13, 12). -/
theorem never_in_wall_witness :
    run (fun x y => if (x = 12 ∨ x = 13) ∧ y = 12 then ⟨0, 0⟩ else ⟨0x40, 0⟩) init_state
        [.move .forward 0, .update_movement 300, .move .forward 400] =
      some (update_movement (begin_move init_state 13 12 0) 300) ∧
    (update_movement (begin_move init_state 13 12 0) 300).gridX = 13 ∧
    (0 ≤ (update_movement (begin_move init_state 13 12 0) 300).gridX ∧
      (update_movement (begin_move init_state 13 12 0) 300).gridX < MAP_WIDTH ∧
      0 ≤ (update_movement (begin_move init_state 13 12 0) 300).gridY ∧
      (update_movement (begin_move init_state 13 12 0) 300).gridY < MAP_HEIGHT) := by
  have hS : run (fun x y => if (x = 12 ∨ x = 13) ∧ y = 12 then ⟨0, 0⟩ else ⟨0x40, 0⟩)
      init_state [.move .forward 0, .update_movement 300, .move .forward 400] =
      some (update_movement (begin_move init_state 13 12 0) 300) := by decide!
  obtain ⟨s, hs, hp, _⟩ :=
    never_in_wall (fun x y => if (x = 12 ∨ x = 13) ∧ y = 12 then ⟨0, 0⟩ else ⟨0x40, 0⟩)
      init_state [.move .forward 0, .update_movement 300, .move .forward 400]
      (by decide) (by decide) (by decide)
  rw [hS] at hs
  cases hs
  exact ⟨hS, by decide!, hp⟩

/-! ## C14: the DDA loop terminates -/

theorem ray_step_cases (r : ℚ) : ray_step r = 1 ∨ ray_step r = -1 := by
  unfold ray_step
  split
  · exact Or.inr rfl
  · exact Or.inl rfl

theorem dda_hit_false_iff (m : WorldMap) (d : DDA) :
    dda_hit m d = false ↔
      (0 ≤ d.mapX ∧ d.mapX < MAP_WIDTH ∧ 0 ≤ d.mapY ∧ d.mapY < MAP_HEIGHT) ∧
      get_tile_type (m d.mapX.toNat d.mapY.toNat) = 0 := by
  unfold dda_hit
  split
  · rename_i hg
    simp only [decide_eq_false_iff_not, gt_iff_lt, not_lt, Nat.le_zero_eq]
    exact ⟨fun h => ⟨hg, h⟩, fun h => h.2⟩
  · rename_i hg
    simp only [Bool.true_eq_false, false_iff]
    exact fun h => hg h.1

theorem dda_hit_true_iff (m : WorldMap) (d : DDA) :
    dda_hit m d = true ↔
      ¬ (0 ≤ d.mapX ∧ d.mapX < MAP_WIDTH ∧ 0 ≤ d.mapY ∧ d.mapY < MAP_HEIGHT) ∨
      ((0 ≤ d.mapX ∧ d.mapX < MAP_WIDTH ∧ 0 ≤ d.mapY ∧ d.mapY < MAP_HEIGHT) ∧
        get_tile_type (m d.mapX.toNat d.mapY.toNat) ≠ 0) := by
  have h := dda_hit_false_iff m d
  cases hb : dda_hit m d
  · have h1 := h.1 hb
    simp only [Bool.false_eq_true, false_iff]
    rintro (h2 | h2)
    · exact h2 h1.1
    · exact h2.2 h1.2
  · simp only [true_iff]
    by_cases hg : 0 ≤ d.mapX ∧ d.mapX < MAP_WIDTH ∧ 0 ≤ d.mapY ∧ d.mapY < MAP_HEIGHT
    · refine Or.inr ⟨hg, fun h0 => ?_⟩
      have := h.2 ⟨hg, h0⟩
      rw [hb] at this
      cases this
    · exact Or.inl hg

/-- One iteration changes exactly one of `mapX`, `mapY`, by its step. -/
theorem dda_jump_cell (rx ry : ℚ) (d : DDA) :
    ((dda_jump rx ry d).mapX = d.mapX + ray_step rx ∧ (dda_jump rx ry d).mapY = d.mapY ∧
      (dda_jump rx ry d).side = 0) ∨
    ((dda_jump rx ry d).mapX = d.mapX ∧ (dda_jump rx ry d).mapY = d.mapY + ray_step ry ∧
      (dda_jump rx ry d).side = 1) := by
  unfold dda_jump
  split
  · exact Or.inl ⟨rfl, rfl, rfl⟩
  · exact Or.inr ⟨rfl, rfl, rfl⟩

/-- What a finished loop delivers: the state after `n` iterations, the first
one at which `hit` is set. -/
theorem dda_loop_spec (m : WorldMap) (rx ry : ℚ) :
    ∀ (fuel : Nat) (d r : DDA), dda_loop m rx ry fuel d = some r →
      ∃ n, 1 ≤ n ∧ n ≤ fuel ∧ r = (dda_jump rx ry)^[n] d ∧ dda_hit m r = true ∧
        ∀ j, 1 ≤ j → j < n → dda_hit m ((dda_jump rx ry)^[j] d) = false := by
  intro fuel
  induction fuel with
  | zero =>
    intro d r h
    cases h
  | succ fuel ih =>
    intro d r h
    simp only [dda_loop] at h
    split at h
    · rename_i hhit
      cases h
      exact ⟨1, le_refl _, by omega, rfl, hhit, fun j h1 h2 => by omega⟩
    · rename_i hhit
      obtain ⟨n, hn1, hn2, hr, hh, hprev⟩ := ih _ r h
      refine ⟨n + 1, by omega, by omega, ?_, hh, ?_⟩
      · rw [Function.iterate_succ_apply]
        exact hr
      · intro j hj1 hj2
        obtain ⟨k, rfl⟩ : ∃ k, j = k + 1 := ⟨j - 1, by omega⟩
        rw [Function.iterate_succ_apply]
        cases k with
        | zero => simpa using hhit
        | succ k => exact hprev (k + 1) (by omega) (by omega)

/-- More fuel does not change the result of a finished loop. -/
theorem dda_loop_mono (m : WorldMap) (rx ry : ℚ) :
    ∀ (fuel : Nat) (d r : DDA), dda_loop m rx ry fuel d = some r →
      ∀ k, dda_loop m rx ry (fuel + k) d = some r := by
  intro fuel
  induction fuel with
  | zero =>
    intro d r h
    cases h
  | succ fuel ih =>
    intro d r h k
    have e : fuel + 1 + k = (fuel + k) + 1 := by omega
    rw [e]
    simp only [dda_loop] at h ⊢
    split
    · rename_i hhit
      rw [if_pos hhit] at h
      exact h
    · rename_i hhit
      rw [if_neg hhit] at h
      exact ih _ r h k

/-- The loop finishes when the fuel exceeds the number of cells left before
the ray leaves the map. -/
theorem dda_loop_terminates (m : WorldMap) (rx ry : ℚ) :
    ∀ (fuel : Nat) (d : DDA),
      (0 ≤ d.mapX ∧ d.mapX < MAP_WIDTH ∧ 0 ≤ d.mapY ∧ d.mapY < MAP_HEIGHT) →
      (if ray_step rx = 1 then 29 - d.mapX else d.mapX) +
        (if ray_step ry = 1 then 23 - d.mapY else d.mapY) < (fuel : Int) →
      ∃ r, dda_loop m rx ry fuel d = some r := by
  intro fuel
  induction fuel with
  | zero =>
    intro d hg hmu
    exfalso
    simp only [MAP_WIDTH, MAP_HEIGHT] at hg
    split_ifs at hmu <;> simp at hmu <;> omega
  | succ fuel ih =>
    intro d hg hmu
    simp only [dda_loop]
    split
    · exact ⟨_, rfl⟩
    · rename_i hhit
      have hfalse : dda_hit m (dda_jump rx ry d) = false := by simpa using hhit
      have hg1 := ((dda_hit_false_iff m _).1 hfalse).1
      apply ih _ hg1
      have hx := ray_step_cases rx
      have hy := ray_step_cases ry
      simp only [MAP_WIDTH, MAP_HEIGHT] at hg hg1
      rcases dda_jump_cell rx ry d with ⟨h1, h2, _⟩ | ⟨h1, h2, _⟩ <;> rw [h1, h2] <;>
        rcases hx with hx | hx <;> rcases hy with hy | hy <;>
        simp only [hx, hy] at hmu ⊢ <;> push_cast at hmu ⊢ <;>
        norm_num at hmu ⊢ <;> omega

/-- From a start cell inside the grid the loop stops within
`MAP_WIDTH + MAP_HEIGHT` iterations, at the first iteration with `hit` set. -/
theorem dda_loop_from_start (m : WorldMap) (playerX playerY rayDirX rayDirY : ℚ)
    (hcell : (0 ≤ to_int playerX ∧ to_int playerX < MAP_WIDTH) ∧
      (0 ≤ to_int playerY ∧ to_int playerY < MAP_HEIGHT)) :
    ∃ (n : Nat) (r : DDA),
      (1 ≤ n ∧ n ≤ MAP_WIDTH + MAP_HEIGHT) ∧
      dda_loop m rayDirX rayDirY (MAP_WIDTH + MAP_HEIGHT)
        (dda_start playerX playerY rayDirX rayDirY) = some r ∧
      r = (dda_jump rayDirX rayDirY)^[n] (dda_start playerX playerY rayDirX rayDirY) ∧
      dda_hit m r = true ∧
      ∀ j, 1 ≤ j → j < n →
        dda_hit m ((dda_jump rayDirX rayDirY)^[j]
          (dda_start playerX playerY rayDirX rayDirY)) = false := by
  have hg : 0 ≤ (dda_start playerX playerY rayDirX rayDirY).mapX ∧
      (dda_start playerX playerY rayDirX rayDirY).mapX < MAP_WIDTH ∧
      0 ≤ (dda_start playerX playerY rayDirX rayDirY).mapY ∧
      (dda_start playerX playerY rayDirX rayDirY).mapY < MAP_HEIGHT :=
    ⟨hcell.1.1, hcell.1.2, hcell.2.1, hcell.2.2⟩
  have hmu : (if ray_step rayDirX = 1 then
        29 - (dda_start playerX playerY rayDirX rayDirY).mapX
      else (dda_start playerX playerY rayDirX rayDirY).mapX) +
      (if ray_step rayDirY = 1 then 23 - (dda_start playerX playerY rayDirX rayDirY).mapY
      else (dda_start playerX playerY rayDirX rayDirY).mapY) <
      ((MAP_WIDTH + MAP_HEIGHT : Nat) : Int) := by
    simp only [MAP_WIDTH, MAP_HEIGHT] at hg ⊢
    split_ifs <;> push_cast <;> omega
  obtain ⟨r, hr⟩ := dda_loop_terminates m rayDirX rayDirY _ _ hg hmu
  obtain ⟨n, hn1, hn2, hrn, hhit, hprev⟩ := dda_loop_spec m rayDirX rayDirY _ _ r hr
  exact ⟨n, r, ⟨hn1, hn2⟩, hr, hrn, hhit, hprev⟩

/-- C14: for every map, every player position whose cell `((int)playerX,
(int)playerY)` is inside the 30x24 grid and every ray direction, the DDA loop
stops after `n` iterations with `1 ≤ n ≤ MAP_WIDTH + MAP_HEIGHT = 54` (so 54
iterations of fuel, and any larger number, give the same result); every
iteration changes exactly one of `mapX`, `mapY`, by `stepX` resp. `stepY`,
which are +1 or -1; the cell at which the loop stops is outside the grid or is
an in-grid cell whose tile type is not Floor; and every cell entered on an
earlier iteration is in the grid with tile type Floor. -/
theorem dda_terminates (m : WorldMap) (playerX playerY rayDirX rayDirY : ℚ)
    (hcell : (0 ≤ to_int playerX ∧ to_int playerX < MAP_WIDTH) ∧
      (0 ≤ to_int playerY ∧ to_int playerY < MAP_HEIGHT)) :
    ∃ (n : Nat) (r : DDA),
      (1 ≤ n ∧ n ≤ MAP_WIDTH + MAP_HEIGHT) ∧
      dda_loop m rayDirX rayDirY (MAP_WIDTH + MAP_HEIGHT)
        (dda_start playerX playerY rayDirX rayDirY) = some r ∧
      (∀ fuel, MAP_WIDTH + MAP_HEIGHT ≤ fuel →
        dda_loop m rayDirX rayDirY fuel (dda_start playerX playerY rayDirX rayDirY) = some r) ∧
      r = (dda_jump rayDirX rayDirY)^[n] (dda_start playerX playerY rayDirX rayDirY) ∧
      (¬ (0 ≤ r.mapX ∧ r.mapX < MAP_WIDTH ∧ 0 ≤ r.mapY ∧ r.mapY < MAP_HEIGHT) ∨
        ((0 ≤ r.mapX ∧ r.mapX < MAP_WIDTH ∧ 0 ≤ r.mapY ∧ r.mapY < MAP_HEIGHT) ∧
          get_tile_type (m r.mapX.toNat r.mapY.toNat) ≠ 0)) ∧
      (∀ j, 1 ≤ j → j < n →
        (0 ≤ ((dda_jump rayDirX rayDirY)^[j] (dda_start playerX playerY rayDirX rayDirY)).mapX ∧
          ((dda_jump rayDirX rayDirY)^[j] (dda_start playerX playerY rayDirX rayDirY)).mapX <
            MAP_WIDTH ∧
          0 ≤ ((dda_jump rayDirX rayDirY)^[j] (dda_start playerX playerY rayDirX rayDirY)).mapY ∧
          ((dda_jump rayDirX rayDirY)^[j] (dda_start playerX playerY rayDirX rayDirY)).mapY <
            MAP_HEIGHT) ∧
        get_tile_type (m
          ((dda_jump rayDirX rayDirY)^[j] (dda_start playerX playerY rayDirX rayDirY)).mapX.toNat
          ((dda_jump rayDirX rayDirY)^[j] (dda_start playerX playerY rayDirX rayDirY)).mapY.toNat)
          = 0) ∧
      (∀ j,
        (((dda_jump rayDirX rayDirY)^[j + 1] (dda_start playerX playerY rayDirX rayDirY)).mapX =
            ((dda_jump rayDirX rayDirY)^[j] (dda_start playerX playerY rayDirX rayDirY)).mapX +
              ray_step rayDirX ∧
          ((dda_jump rayDirX rayDirY)^[j + 1] (dda_start playerX playerY rayDirX rayDirY)).mapY =
            ((dda_jump rayDirX rayDirY)^[j] (dda_start playerX playerY rayDirX rayDirY)).mapY) ∨
        (((dda_jump rayDirX rayDirY)^[j + 1] (dda_start playerX playerY rayDirX rayDirY)).mapX =
            ((dda_jump rayDirX rayDirY)^[j] (dda_start playerX playerY rayDirX rayDirY)).mapX ∧
          ((dda_jump rayDirX rayDirY)^[j + 1] (dda_start playerX playerY rayDirX rayDirY)).mapY =
            ((dda_jump rayDirX rayDirY)^[j] (dda_start playerX playerY rayDirX rayDirY)).mapY +
              ray_step rayDirY)) ∧
      ((ray_step rayDirX = 1 ∨ ray_step rayDirX = -1) ∧
        (ray_step rayDirY = 1 ∨ ray_step rayDirY = -1)) := by
  obtain ⟨n, r, ⟨hn1, hn2⟩, hr, hrn, hhit, hprev⟩ :=
    dda_loop_from_start m playerX playerY rayDirX rayDirY hcell
  refine ⟨n, r, ⟨hn1, hn2⟩, hr, ?_, hrn, (dda_hit_true_iff m r).1 hhit, ?_, ?_,
    ray_step_cases _, ray_step_cases _⟩
  · intro fuel hf
    obtain ⟨k, rfl⟩ : ∃ k, fuel = MAP_WIDTH + MAP_HEIGHT + k := ⟨fuel - (MAP_WIDTH + MAP_HEIGHT), by omega⟩
    exact dda_loop_mono m rayDirX rayDirY _ _ r hr k
  · intro j hj1 hj2
    exact (dda_hit_false_iff m _).1 (hprev j hj1 hj2)
  · intro j
    rw [Function.iterate_succ_apply']
    rcases dda_jump_cell rayDirX rayDirY
      ((dda_jump rayDirX rayDirY)^[j] (dda_start playerX playerY rayDirX rayDirY)) with
      ⟨h1, h2, _⟩ | ⟨h1, h2, _⟩
    · exact Or.inl ⟨h1, h2⟩
    · exact Or.inr ⟨h1, h2⟩

/-- C14 in the room of 3x3 Floor cells (1..3, 1..3) inside walls, from the
centre (2.5, 2.5) along (1, 0): the loop stops after two iterations at the wall
cell (4, 2), which is inside the grid with a tile type other than Floor. -/
theorem dda_terminates_witness :
    dda_loop (fun x y => if 1 ≤ x ∧ x ≤ 3 ∧ 1 ≤ y ∧ y ≤ 3 then ⟨0, 0⟩ else ⟨0x40, 0⟩) 1 0
        (MAP_WIDTH + MAP_HEIGHT) (dda_start 2.5 2.5 1 0) =
      some ⟨2.5, 5e29, 4, 2, 0⟩ ∧
    (¬ (0 ≤ (4 : Int) ∧ (4 : Int) < MAP_WIDTH ∧ 0 ≤ (2 : Int) ∧ (2 : Int) < MAP_HEIGHT) ∨
      ((0 ≤ (4 : Int) ∧ (4 : Int) < MAP_WIDTH ∧ 0 ≤ (2 : Int) ∧ (2 : Int) < MAP_HEIGHT) ∧
        get_tile_type ((fun x y => if 1 ≤ x ∧ x ≤ 3 ∧ 1 ≤ y ∧ y ≤ 3 then ⟨0, 0⟩ else ⟨0x40, 0⟩ :
          WorldMap) (4 : Int).toNat (2 : Int).toNat) ≠ 0)) := by
  have hS : dda_loop
      (fun x y => if 1 ≤ x ∧ x ≤ 3 ∧ 1 ≤ y ∧ y ≤ 3 then ⟨0, 0⟩ else ⟨0x40, 0⟩) 1 0
      (MAP_WIDTH + MAP_HEIGHT) (dda_start 2.5 2.5 1 0) = some ⟨2.5, 5e29, 4, 2, 0⟩ := by
    decide!
  obtain ⟨n, r, _, hr, _, _, hstop, _⟩ :=
    dda_terminates (fun x y => if 1 ≤ x ∧ x ≤ 3 ∧ 1 ≤ y ∧ y ≤ 3 then ⟨0, 0⟩ else ⟨0x40, 0⟩)
      2.5 2.5 1 0 (by decide!)
  rw [hS] at hr
  cases hr
  exact ⟨hS, hstop⟩

/-! ## C13: axis-aligned rays -/

/-- A loop whose `k`-th iteration is the first with `hit` set stops there. -/
theorem dda_loop_of_first_hit (m : WorldMap) (rx ry : ℚ) :
    ∀ (k fuel : Nat) (d : DDA), 1 ≤ k → k ≤ fuel →
      (∀ j, 1 ≤ j → j < k → dda_hit m ((dda_jump rx ry)^[j] d) = false) →
      dda_hit m ((dda_jump rx ry)^[k] d) = true →
      dda_loop m rx ry fuel d = some ((dda_jump rx ry)^[k] d) := by
  intro k
  induction k with
  | zero => intro fuel d h; omega
  | succ k ih =>
    intro fuel d _ hf hprev hhit
    obtain ⟨f, rfl⟩ : ∃ f, fuel = f + 1 := ⟨fuel - 1, by omega⟩
    simp only [dda_loop]
    cases k with
    | zero =>
      rw [if_pos (by simpa using hhit)]
      rfl
    | succ k =>
      have h1 : dda_hit m (dda_jump rx ry d) = false := by
        simpa using hprev 1 (le_refl _) (by omega)
      rw [if_neg (by rw [h1]; simp)]
      rw [Function.iterate_succ_apply]
      apply ih f (dda_jump rx ry d) (by omega) (by omega)
      · intro j hj1 hj2
        have := hprev (j + 1) (by omega) (by omega)
        rwa [Function.iterate_succ_apply] at this
      · rwa [Function.iterate_succ_apply] at hhit

/-- As long as `sideDistX` stays below `sideDistY` the loop steps in x. -/
theorem iterate_x_run (rx ry : ℚ) (d : DDA) :
    ∀ k : Nat, (∀ j : Nat, j < k → d.sideDistX + (j : ℚ) * deltaDist rx < d.sideDistY) →
      (dda_jump rx ry)^[k] d =
        { sideDistX := d.sideDistX + (k : ℚ) * deltaDist rx
          sideDistY := d.sideDistY
          mapX := d.mapX + (k : Int) * ray_step rx
          mapY := d.mapY
          side := if k = 0 then d.side else 0 } := by
  intro k
  induction k with
  | zero =>
    intro _
    simp
  | succ k ih =>
    intro h
    rw [Function.iterate_succ_apply', ih (fun j hj => h j (by omega))]
    unfold dda_jump
    simp only
    rw [if_pos (h k (by omega))]
    simp only [DDA.mk.injEq]
    refine ⟨by push_cast; ring, trivial, by push_cast; ring, trivial, by simp⟩

/-- As long as `sideDistX` does not fall below `sideDistY` the loop steps in
y. -/
theorem iterate_y_run (rx ry : ℚ) (d : DDA) :
    ∀ k : Nat, (∀ j : Nat, j < k → ¬ (d.sideDistX < d.sideDistY + (j : ℚ) * deltaDist ry)) →
      (dda_jump rx ry)^[k] d =
        { sideDistX := d.sideDistX
          sideDistY := d.sideDistY + (k : ℚ) * deltaDist ry
          mapX := d.mapX
          mapY := d.mapY + (k : Int) * ray_step ry
          side := if k = 0 then d.side else 1 } := by
  intro k
  induction k with
  | zero =>
    intro _
    simp
  | succ k ih =>
    intro h
    rw [Function.iterate_succ_apply', ih (fun j hj => h j (by omega))]
    unfold dda_jump
    simp only
    rw [if_neg (h k (by omega))]
    simp only [DDA.mk.injEq]
    refine ⟨trivial, by push_cast; ring, trivial, by push_cast; ring, by simp⟩

theorem to_int_of_nonneg (p : ℚ) (hp : 0 ≤ p) :
    ((to_int p : Int) : ℚ) ≤ p ∧ p < (to_int p : ℚ) + 1 := by
  unfold to_int
  rw [if_pos hp]
  exact ⟨Int.floor_le p, Int.lt_floor_add_one p⟩

theorem sentinel_large : (30 : ℚ) < 1 / 2 ^ 53 * (1e30 : ℚ) := by
  norm_num

theorem ray_consts (s : Int) (hs : s = 1 ∨ s = -1) :
    deltaDist (s : ℚ) = 1 ∧ ray_step (s : ℚ) = s ∧ deltaDist 0 = 1e30 ∧ ray_step 0 = 1 := by
  rcases hs with rfl | rfl
  · refine ⟨?_, ?_, ?_, ?_⟩ <;> simp [deltaDist, ray_step]
  · refine ⟨?_, ?_, ?_, ?_⟩ <;> simp [deltaDist, ray_step]

theorem start_dists (playerX playerY : ℚ) (s : Int) (hs : s = 1 ∨ s = -1)
    (hx : 0 ≤ playerX) (hy : 0 ≤ playerY) :
    ((dda_start playerX playerY (s : ℚ) 0).sideDistX ≤ 1 ∧
      (dda_start playerX playerY (s : ℚ) 0).sideDistY =
        ((to_int playerY : ℚ) + 1 - playerY) * 1e30) ∧
    ((dda_start playerX playerY 0 (s : ℚ)).sideDistY ≤ 1 ∧
      (dda_start playerX playerY 0 (s : ℚ)).sideDistX =
        ((to_int playerX : ℚ) + 1 - playerX) * 1e30) := by
  obtain ⟨c1, _, c3, _⟩ := ray_consts s hs
  obtain ⟨hx1, hx2⟩ := to_int_of_nonneg playerX hx
  obtain ⟨hy1, hy2⟩ := to_int_of_nonneg playerY hy
  simp only [dda_start, c1, c3, mul_one, lt_self_iff_false, if_false]
  refine ⟨⟨?_, by norm_num⟩, ?_, by norm_num⟩
  · split_ifs <;> norm_num <;> linarith
  · split_ifs <;> norm_num <;> linarith

/-- An x-axis ray: the loop steps `k` times in x and stops at the first cell
that is not an in-grid Floor cell. -/
theorem cast_ray_x_axis (m : WorldMap) (playerX playerY : ℚ) (s : Int) (k : Nat)
    (hs : s = 1 ∨ s = -1) (hx : 0 ≤ playerX) (hy : 0 ≤ playerY)
    (hstart : 0 ≤ to_int playerX ∧ to_int playerX < MAP_WIDTH)
    (hgran : (1 : ℚ) / 2 ^ 53 ≤ (to_int playerY : ℚ) + 1 - playerY)
    (hk : 1 ≤ k)
    (hfloor : ∀ j : Nat, 1 ≤ j → j < k →
      (0 ≤ to_int playerX + (j : Int) * s ∧ to_int playerX + (j : Int) * s < MAP_WIDTH ∧
        0 ≤ to_int playerY ∧ to_int playerY < MAP_HEIGHT) ∧
      get_tile_type (m (to_int playerX + (j : Int) * s).toNat (to_int playerY).toNat) = 0)
    (hstop : ¬ ((0 ≤ to_int playerX + (k : Int) * s ∧ to_int playerX + (k : Int) * s < MAP_WIDTH ∧
        0 ≤ to_int playerY ∧ to_int playerY < MAP_HEIGHT) ∧
      get_tile_type (m (to_int playerX + (k : Int) * s).toNat (to_int playerY).toNat) = 0)) :
    cast_ray m playerX playerY (s : ℚ) 0 (MAP_WIDTH + MAP_HEIGHT) =
      some
        { mapX := to_int playerX + (k : Int) * s
          mapY := to_int playerY
          side := 0
          perpWallDist :=
            (((to_int playerX + (k : Int) * s : Int) : ℚ) - playerX +
              (((1 - s) / 2 : Int) : ℚ)) / (s : ℚ) } := by
  obtain ⟨c1, c2, c3, c4⟩ := ray_consts s hs
  obtain ⟨⟨hsx, hsy⟩, _⟩ := start_dists playerX playerY s hs hx hy
  have hk30 : k ≤ 30 := by
    by_cases h1 : k = 1
    · omega
    · have := (hfloor (k - 1) (by omega) (by omega)).1
      simp only [MAP_WIDTH] at this hstart
      have hc : ((k - 1 : Nat) : Int) = (k : Int) - 1 := by omega
      rw [hc] at this
      rcases hs with rfl | rfl <;> omega
  have hbig : (30 : ℚ) < (dda_start playerX playerY (s : ℚ) 0).sideDistY := by
    rw [hsy]
    have h30 := sentinel_large
    have hpos : (0 : ℚ) < 1e30 := by norm_num
    calc (30 : ℚ) < 1 / 2 ^ 53 * (1e30 : ℚ) := h30
      _ ≤ ((to_int playerY : ℚ) + 1 - playerY) * 1e30 :=
        mul_le_mul_of_nonneg_right hgran hpos.le
  have hrun : ∀ j : Nat, j ≤ k →
      (dda_jump (s : ℚ) 0)^[j] (dda_start playerX playerY (s : ℚ) 0) =
        { sideDistX := (dda_start playerX playerY (s : ℚ) 0).sideDistX + (j : ℚ) * deltaDist (s : ℚ)
          sideDistY := (dda_start playerX playerY (s : ℚ) 0).sideDistY
          mapX := (dda_start playerX playerY (s : ℚ) 0).mapX + (j : Int) * ray_step (s : ℚ)
          mapY := (dda_start playerX playerY (s : ℚ) 0).mapY
          side := if j = 0 then (dda_start playerX playerY (s : ℚ) 0).side else 0 } := by
    intro j hj
    apply iterate_x_run
    intro i hi
    rw [c1, mul_one]
    have hi30 : (i : ℚ) ≤ 29 := by
      have : i ≤ 29 := by omega
      exact_mod_cast this
    linarith
  have hloop := dda_loop_of_first_hit m (s : ℚ) 0 k (MAP_WIDTH + MAP_HEIGHT)
    (dda_start playerX playerY (s : ℚ) 0) hk (by simp only [MAP_WIDTH, MAP_HEIGHT]; omega)
    (by
      intro j hj1 hj2
      rw [hrun j (by omega), dda_hit_false_iff]
      simp only [c2]
      exact hfloor j hj1 hj2)
    (by
      rw [hrun k (le_refl _), dda_hit_true_iff]
      simp only [c2]
      by_cases hg : 0 ≤ to_int playerX + (k : Int) * s ∧
          to_int playerX + (k : Int) * s < MAP_WIDTH ∧
          0 ≤ to_int playerY ∧ to_int playerY < MAP_HEIGHT
      · exact Or.inr ⟨hg, fun h0 => hstop ⟨hg, h0⟩⟩
      · exact Or.inl hg)
  unfold cast_ray
  rw [hloop, hrun k (le_refl _)]
  have hk0 : k ≠ 0 := by omega
  simp only [perp_wall_dist, c2, if_neg hk0, if_true]
  rfl

/-- A y-axis ray: the loop steps `k` times in y and stops at the first cell
that is not an in-grid Floor cell. -/
theorem cast_ray_y_axis (m : WorldMap) (playerX playerY : ℚ) (s : Int) (k : Nat)
    (hs : s = 1 ∨ s = -1) (hx : 0 ≤ playerX) (hy : 0 ≤ playerY)
    (hstart : 0 ≤ to_int playerY ∧ to_int playerY < MAP_HEIGHT)
    (hgran : (1 : ℚ) / 2 ^ 53 ≤ (to_int playerX : ℚ) + 1 - playerX)
    (hk : 1 ≤ k)
    (hfloor : ∀ j : Nat, 1 ≤ j → j < k →
      (0 ≤ to_int playerX ∧ to_int playerX < MAP_WIDTH ∧
        0 ≤ to_int playerY + (j : Int) * s ∧ to_int playerY + (j : Int) * s < MAP_HEIGHT) ∧
      get_tile_type (m (to_int playerX).toNat (to_int playerY + (j : Int) * s).toNat) = 0)
    (hstop : ¬ ((0 ≤ to_int playerX ∧ to_int playerX < MAP_WIDTH ∧
        0 ≤ to_int playerY + (k : Int) * s ∧ to_int playerY + (k : Int) * s < MAP_HEIGHT) ∧
      get_tile_type (m (to_int playerX).toNat (to_int playerY + (k : Int) * s).toNat) = 0)) :
    cast_ray m playerX playerY 0 (s : ℚ) (MAP_WIDTH + MAP_HEIGHT) =
      some
        { mapX := to_int playerX
          mapY := to_int playerY + (k : Int) * s
          side := 1
          perpWallDist :=
            (((to_int playerY + (k : Int) * s : Int) : ℚ) - playerY +
              (((1 - s) / 2 : Int) : ℚ)) / (s : ℚ) } := by
  obtain ⟨c1, c2, c3, c4⟩ := ray_consts s hs
  obtain ⟨_, ⟨hsy, hsx⟩⟩ := start_dists playerX playerY s hs hx hy
  have hk24 : k ≤ 24 := by
    by_cases h1 : k = 1
    · omega
    · have := (hfloor (k - 1) (by omega) (by omega)).1
      simp only [MAP_HEIGHT] at this hstart
      have hc : ((k - 1 : Nat) : Int) = (k : Int) - 1 := by omega
      rw [hc] at this
      rcases hs with rfl | rfl <;> omega
  have hbig : (30 : ℚ) < (dda_start playerX playerY 0 (s : ℚ)).sideDistX := by
    rw [hsx]
    have h30 := sentinel_large
    have hpos : (0 : ℚ) < 1e30 := by norm_num
    calc (30 : ℚ) < 1 / 2 ^ 53 * (1e30 : ℚ) := h30
      _ ≤ ((to_int playerX : ℚ) + 1 - playerX) * 1e30 :=
        mul_le_mul_of_nonneg_right hgran hpos.le
  have hrun : ∀ j : Nat, j ≤ k →
      (dda_jump 0 (s : ℚ))^[j] (dda_start playerX playerY 0 (s : ℚ)) =
        { sideDistX := (dda_start playerX playerY 0 (s : ℚ)).sideDistX
          sideDistY := (dda_start playerX playerY 0 (s : ℚ)).sideDistY + (j : ℚ) * deltaDist (s : ℚ)
          mapX := (dda_start playerX playerY 0 (s : ℚ)).mapX
          mapY := (dda_start playerX playerY 0 (s : ℚ)).mapY + (j : Int) * ray_step (s : ℚ)
          side := if j = 0 then (dda_start playerX playerY 0 (s : ℚ)).side else 1 } := by
    intro j hj
    apply iterate_y_run
    intro i hi
    rw [c1, mul_one]
    have hi30 : (i : ℚ) ≤ 23 := by
      have : i ≤ 23 := by omega
      exact_mod_cast this
    intro hlt
    linarith
  have hloop := dda_loop_of_first_hit m 0 (s : ℚ) k (MAP_WIDTH + MAP_HEIGHT)
    (dda_start playerX playerY 0 (s : ℚ)) hk (by simp only [MAP_WIDTH, MAP_HEIGHT]; omega)
    (by
      intro j hj1 hj2
      rw [hrun j (by omega), dda_hit_false_iff]
      simp only [c2]
      exact hfloor j hj1 hj2)
    (by
      rw [hrun k (le_refl _), dda_hit_true_iff]
      simp only [c2]
      by_cases hg : 0 ≤ to_int playerX ∧ to_int playerX < MAP_WIDTH ∧
          0 ≤ to_int playerY + (k : Int) * s ∧
          to_int playerY + (k : Int) * s < MAP_HEIGHT
      · exact Or.inr ⟨hg, fun h0 => hstop ⟨hg, h0⟩⟩
      · exact Or.inl hg)
  unfold cast_ray
  rw [hloop, hrun k (le_refl _)]
  have hk0 : k ≠ 0 := by omega
  simp only [perp_wall_dist, c2, if_neg hk0]
  rfl

/-- C13: let the player stand at a position with non-negative coordinates whose
cell `(mx, my) = ((int)playerX, (int)playerY)` is inside the grid, each
coordinate at least `2^-53` below the next grid line (as every `double` inside
a cell is), and let a ray be cast exactly along a grid axis, in the direction
`(sx, sy)` out of (1, 0), (-1, 0), (0, 1), (0, -1).  If the cells
`(mx + j * sx, my + j * sy)` for `1 ≤ j < k` are in-grid Floor cells and the
cell for `j = k` is not, the DDA stops at that cell, with `side = 0` for an
x-axis ray and 1 for a y-axis ray, and `perpWallDist` is the distance from the
player to the near face of that cell: `mx + k - playerX` for (1, 0),
`playerX - (mx - k + 1)` for (-1, 0), `my + k - playerY` for (0, 1) and
`playerY - (my - k + 1)` for (0, -1). -/
theorem dda_axis_corridor (m : WorldMap) (playerX playerY : ℚ) (sx sy : Int) (k : Nat)
    (hdir : (sx = 1 ∧ sy = 0) ∨ (sx = -1 ∧ sy = 0) ∨ (sx = 0 ∧ sy = 1) ∨ (sx = 0 ∧ sy = -1))
    (hx : 0 ≤ playerX) (hy : 0 ≤ playerY)
    (hstart : (0 ≤ to_int playerX ∧ to_int playerX < MAP_WIDTH) ∧
      (0 ≤ to_int playerY ∧ to_int playerY < MAP_HEIGHT))
    (hgran : (1 : ℚ) / 2 ^ 53 ≤ (to_int playerX : ℚ) + 1 - playerX ∧
      (1 : ℚ) / 2 ^ 53 ≤ (to_int playerY : ℚ) + 1 - playerY)
    (hk : 1 ≤ k)
    (hfloor : ∀ j : Nat, 1 ≤ j → j < k →
      (0 ≤ to_int playerX + (j : Int) * sx ∧ to_int playerX + (j : Int) * sx < MAP_WIDTH ∧
        0 ≤ to_int playerY + (j : Int) * sy ∧ to_int playerY + (j : Int) * sy < MAP_HEIGHT) ∧
      get_tile_type
        (m (to_int playerX + (j : Int) * sx).toNat (to_int playerY + (j : Int) * sy).toNat) = 0)
    (hstop : ¬ ((0 ≤ to_int playerX + (k : Int) * sx ∧
        to_int playerX + (k : Int) * sx < MAP_WIDTH ∧
        0 ≤ to_int playerY + (k : Int) * sy ∧ to_int playerY + (k : Int) * sy < MAP_HEIGHT) ∧
      get_tile_type
        (m (to_int playerX + (k : Int) * sx).toNat (to_int playerY + (k : Int) * sy).toNat) = 0)) :
    cast_ray m playerX playerY (sx : ℚ) (sy : ℚ) (MAP_WIDTH + MAP_HEIGHT) =
      some
        { mapX := to_int playerX + (k : Int) * sx
          mapY := to_int playerY + (k : Int) * sy
          side := if sy = 0 then 0 else 1
          perpWallDist :=
            if sx = 1 then (to_int playerX : ℚ) + (k : ℚ) - playerX
            else if sx = -1 then playerX - ((to_int playerX : ℚ) - (k : ℚ) + 1)
            else if sy = 1 then (to_int playerY : ℚ) + (k : ℚ) - playerY
            else playerY - ((to_int playerY : ℚ) - (k : ℚ) + 1) } := by
  rcases hdir with ⟨rfl, rfl⟩ | ⟨rfl, rfl⟩ | ⟨rfl, rfl⟩ | ⟨rfl, rfl⟩
  · have h := cast_ray_x_axis m playerX playerY 1 k (Or.inl rfl) hx hy hstart.1 hgran.2 hk
      (by simpa using hfloor) (by simpa using hstop)
    simp only [Int.cast_zero]
    rw [h]
    simp
  · have h := cast_ray_x_axis m playerX playerY (-1) k (Or.inr rfl) hx hy hstart.1 hgran.2 hk
      (by simpa using hfloor) (by simpa using hstop)
    simp only [Int.cast_zero]
    rw [h]
    simp
    ring
  · have h := cast_ray_y_axis m playerX playerY 1 k (Or.inl rfl) hx hy hstart.2 hgran.1 hk
      (by simpa using hfloor) (by simpa using hstop)
    simp only [Int.cast_zero]
    rw [h]
    simp
  · have h := cast_ray_y_axis m playerX playerY (-1) k (Or.inr rfl) hx hy hstart.2 hgran.1 hk
      (by simpa using hfloor) (by simpa using hstop)
    simp only [Int.cast_zero]
    rw [h]
    simp
    ring

/-- C13 in the room of 3x3 Floor cells (1..3, 1..3) inside walls, with the
player at the centre (2.5, 2.5) of the middle cell: the ray along (1, 0), the
facing NORTH, stops at the wall cell (4, 2) with `perpWallDist = 1.5`, and the
rays along the other three axis directions also stop at distance 1.5. -/
theorem dda_axis_corridor_witness :
    cast_ray (fun x y => if 1 ≤ x ∧ x ≤ 3 ∧ 1 ≤ y ∧ y ≤ 3 then ⟨0, 0⟩ else ⟨0x40, 0⟩)
      2.5 2.5 1 0 54 = some ⟨4, 2, 0, 1.5⟩ ∧
    cast_ray (fun x y => if 1 ≤ x ∧ x ≤ 3 ∧ 1 ≤ y ∧ y ≤ 3 then ⟨0, 0⟩ else ⟨0x40, 0⟩)
      2.5 2.5 (-1) 0 54 = some ⟨0, 2, 0, 1.5⟩ ∧
    cast_ray (fun x y => if 1 ≤ x ∧ x ≤ 3 ∧ 1 ≤ y ∧ y ≤ 3 then ⟨0, 0⟩ else ⟨0x40, 0⟩)
      2.5 2.5 0 1 54 = some ⟨2, 4, 1, 1.5⟩ ∧
    cast_ray (fun x y => if 1 ≤ x ∧ x ≤ 3 ∧ 1 ≤ y ∧ y ≤ 3 then ⟨0, 0⟩ else ⟨0x40, 0⟩)
      2.5 2.5 0 (-1) 54 = some ⟨2, 0, 1, 1.5⟩ := by
  have h := dda_axis_corridor
    (fun x y => if 1 ≤ x ∧ x ≤ 3 ∧ 1 ≤ y ∧ y ≤ 3 then ⟨0, 0⟩ else ⟨0x40, 0⟩)
    2.5 2.5 1 0 2 (Or.inl ⟨rfl, rfl⟩) (by norm_num) (by norm_num) (by decide!) (by decide!)
    (by norm_num)
    (by
      intro j h1 h2
      obtain rfl : j = 1 := by omega
      decide!)
    (by decide!)
  refine ⟨?_, by decide!, by decide!, by decide!⟩
  exact (by decide! : cast_ray
      (fun x y => if 1 ≤ x ∧ x ≤ 3 ∧ 1 ≤ y ∧ y ≤ 3 then ⟨0, 0⟩ else ⟨0x40, 0⟩)
      2.5 2.5 1 0 54 = cast_ray
      (fun x y => if 1 ≤ x ∧ x ≤ 3 ∧ 1 ≤ y ∧ y ≤ 3 then ⟨0, 0⟩ else ⟨0x40, 0⟩)
      2.5 2.5 ((1 : Int) : ℚ) ((0 : Int) : ℚ) (MAP_WIDTH + MAP_HEIGHT)).trans
    (h.trans (by decide!))

/-! ## C19: the perpendicular wall distance is positive -/

/-- The value of `M_PI` is a double in `[2, 4)`, where the doubles are the
multiples of `2 ^ -51` with a numerator below `2 ^ 53`, and it is the one
nearest to the decimal of the source: the two differ by less than half that
spacing. -/
theorem M_PI_nearest :
    M_PI = 7074237752028440 / 2 ^ 51 ∧ (7074237752028440 : ℚ) < 2 ^ 53 ∧
    (2 ≤ M_PI ∧ M_PI < 4) ∧
    |3.14159265358979323846 - M_PI| < 1 / 2 ^ 52 := by
  unfold M_PI
  refine ⟨by norm_num, by norm_num, ⟨by norm_num, by norm_num⟩, ?_⟩
  rw [abs_lt]
  constructor <;> norm_num

theorem M_PI_cast : ((M_PI : ℚ) : ℝ) = 884279719003555 / 2 ^ 48 := by
  unfold M_PI
  norm_num

/-- The constant `M_PI` is below π, by more than `1.22e-16` and less than
`1.23e-16`. -/
theorem M_PI_lt_pi : ((M_PI : ℚ) : ℝ) < Real.pi ∧
    (1.22e-16 < Real.pi - ((M_PI : ℚ) : ℝ) ∧ Real.pi - ((M_PI : ℚ) : ℝ) < 1.23e-16) := by
  rw [M_PI_cast]
  have h1 := Real.pi_gt_d20
  have h2 := Real.pi_lt_d20
  refine ⟨?_, ?_, ?_⟩
  · norm_num at h1 ⊢
    linarith
  · norm_num at h1 ⊢
    linarith
  · norm_num at h2 ⊢
    linarith

theorem small_angle (e : ℝ) (h0 : 0 ≤ e) (h1 : e ≤ 1) :
    |Real.sin e| ≤ e ∧ |Real.cos e - 1| ≤ e := by
  have hpi : e ≤ Real.pi := by
    have := Real.pi_gt_three
    linarith
  have hs0 : 0 ≤ Real.sin e := Real.sin_nonneg_of_nonneg_of_le_pi h0 hpi
  have hs1 : Real.sin e ≤ e := Real.sin_le h0
  have hc1 : Real.cos e ≤ 1 := Real.cos_le_one e
  have hc0 : 1 - e ^ 2 / 2 ≤ Real.cos e := Real.one_sub_sq_div_two_le_cos
  have hsq : e ^ 2 / 2 ≤ e := by nlinarith
  constructor
  · rw [abs_of_nonneg hs0]
    exact hs1
  · rw [abs_of_nonpos (by linarith)]
    linarith

/-- The facing vector `(cos, sin)` at the angle of a facing against the grid
step of that facing: exact for NORTH, and within `3/2 * (π - M_PI)` for the
other three. -/
theorem facing_vector_close :
    (Real.cos ((facing_angle .NORTH : ℚ) : ℝ) = 1 ∧ Real.sin ((facing_angle .NORTH : ℚ) : ℝ) = 0) ∧
    (|Real.cos ((facing_angle .EAST : ℚ) : ℝ) - 0| ≤ 3 / 2 * (Real.pi - ((M_PI : ℚ) : ℝ)) ∧
      |Real.sin ((facing_angle .EAST : ℚ) : ℝ) - (-1)| ≤ 3 / 2 * (Real.pi - ((M_PI : ℚ) : ℝ))) ∧
    (|Real.cos ((facing_angle .SOUTH : ℚ) : ℝ) - (-1)| ≤ 3 / 2 * (Real.pi - ((M_PI : ℚ) : ℝ)) ∧
      |Real.sin ((facing_angle .SOUTH : ℚ) : ℝ) - 0| ≤ 3 / 2 * (Real.pi - ((M_PI : ℚ) : ℝ))) ∧
    (|Real.cos ((facing_angle .WEST : ℚ) : ℝ) - 0| ≤ 3 / 2 * (Real.pi - ((M_PI : ℚ) : ℝ)) ∧
      |Real.sin ((facing_angle .WEST : ℚ) : ℝ) - 1| ≤ 3 / 2 * (Real.pi - ((M_PI : ℚ) : ℝ))) := by
  obtain ⟨hlt, _, hsmall⟩ := M_PI_lt_pi
  have hd0 : 0 ≤ Real.pi - ((M_PI : ℚ) : ℝ) := by linarith
  have hd1 : Real.pi - ((M_PI : ℚ) : ℝ) ≤ 1 / 2 := by
    norm_num at hsmall ⊢
    linarith
  have hN : ((facing_angle .NORTH : ℚ) : ℝ) = 0 := by
    simp [facing_angle, Direction.val]
  have hE : ((facing_angle .EAST : ℚ) : ℝ) =
      (Real.pi / 2 - 3 / 2 * (Real.pi - ((M_PI : ℚ) : ℝ))) + Real.pi := by
    simp [facing_angle, Direction.val]
    ring
  have hS : ((facing_angle .SOUTH : ℚ) : ℝ) = Real.pi - (Real.pi - ((M_PI : ℚ) : ℝ)) := by
    simp [facing_angle, Direction.val]
    ring
  have hW : ((facing_angle .WEST : ℚ) : ℝ) =
      Real.pi / 2 - 1 / 2 * (Real.pi - ((M_PI : ℚ) : ℝ)) := by
    simp [facing_angle, Direction.val]
    ring
  obtain ⟨e3s, e3c⟩ := small_angle (3 / 2 * (Real.pi - ((M_PI : ℚ) : ℝ))) (by linarith) (by linarith)
  obtain ⟨e2s, e2c⟩ := small_angle (Real.pi - ((M_PI : ℚ) : ℝ)) hd0 (by linarith)
  obtain ⟨e1s, e1c⟩ := small_angle (1 / 2 * (Real.pi - ((M_PI : ℚ) : ℝ))) (by linarith) (by linarith)
  refine ⟨⟨?_, ?_⟩, ⟨?_, ?_⟩, ⟨?_, ?_⟩, ⟨?_, ?_⟩⟩
  · rw [hN, Real.cos_zero]
  · rw [hN, Real.sin_zero]
  · rw [hE, Real.cos_add_pi, Real.cos_pi_div_two_sub, sub_zero, abs_neg]
    exact e3s
  · rw [hE, Real.sin_add_pi, Real.sin_pi_div_two_sub]
    have : -Real.cos (3 / 2 * (Real.pi - ((M_PI : ℚ) : ℝ))) - -1 =
        -(Real.cos (3 / 2 * (Real.pi - ((M_PI : ℚ) : ℝ))) - 1) := by ring
    rw [this, abs_neg]
    exact e3c
  · rw [hS, Real.cos_pi_sub]
    have : -Real.cos (Real.pi - ((M_PI : ℚ) : ℝ)) - -1 =
        -(Real.cos (Real.pi - ((M_PI : ℚ) : ℝ)) - 1) := by ring
    rw [this, abs_neg]
    linarith
  · rw [hS, Real.sin_pi_sub, sub_zero]
    linarith
  · rw [hW, Real.cos_pi_div_two_sub, sub_zero]
    linarith
  · rw [hW, Real.sin_pi_div_two_sub]
    linarith

/-- The cosine of `M_PI / 2` is not 0. -/
theorem cos_half_M_PI_pos : 0 < Real.cos ((M_PI / 2 : ℚ) : ℝ) := by
  obtain ⟨hlt, _⟩ := M_PI_lt_pi
  have hpos : (0 : ℝ) < ((M_PI : ℚ) : ℝ) := by exact_mod_cast M_PI_pos
  apply Real.cos_pos_of_mem_Ioo
  constructor
  · push_cast
    linarith [Real.pi_pos]
  · push_cast
    linarith

theorem wrap_turn_left (d : Direction) :
    wrap_angle (facing_angle d - M_PI / 2) = facing_angle (Direction.ofVal ((d.val + 1) % 4)) := by
  have hpi := M_PI_pos
  cases d <;> simp only [facing_angle, Direction.val, Direction.ofVal, wrap_angle] <;>
    norm_num <;>
    first
      | (split_ifs <;> linarith)
      | (intro h; linarith)

theorem wrap_turn_right (d : Direction) :
    wrap_angle (facing_angle d + M_PI / 2) = facing_angle (Direction.ofVal ((d.val + 3) % 4)) := by
  have hpi := M_PI_pos
  cases d <;> simp only [facing_angle, Direction.val, Direction.ofVal, wrap_angle] <;>
    norm_num <;> split_ifs <;> linarith

theorem facing_inv_step (m : WorldMap) (s : State) (a : Action) (s1 : State)
    (hs : facing_inv s) (h : step m s a = some s1) : facing_inv s1 := by
  cases a with
  | move r t =>
    simp only [step] at h
    rcases apply_cases r m s s1 t h with h1 | ⟨_, h1⟩
    · rw [h1]; exact hs
    · rw [h1]; exact hs
  | turn_left t =>
    simp only [step] at h
    cases h
    unfold initiate_turn_left
    split
    · rename_i hidle
      refine ⟨fun hc => absurd hc (by simp), fun _ => ?_⟩
      simp only
      rw [hs.1 hidle.2]
      exact wrap_turn_left _
    · exact hs
  | turn_right t =>
    simp only [step] at h
    cases h
    unfold initiate_turn_right
    split
    · rename_i hidle
      refine ⟨fun hc => absurd hc (by simp), fun _ => ?_⟩
      simp only
      rw [hs.1 hidle.2]
      exact wrap_turn_right _
    · exact hs
  | update_movement t =>
    simp only [step] at h
    cases h
    unfold update_movement
    split
    · simp only
      split <;> exact hs
    · exact hs
  | update_rotation t =>
    simp only [step] at h
    cases h
    unfold update_rotation
    split
    · rename_i hrot
      simp only
      split
      · exact ⟨fun _ => hs.2 hrot, fun hc => absurd rfl hc⟩
      · exact ⟨fun hc => absurd hc hrot, fun _ => hs.2 hrot⟩
    · exact hs

/-- C18 (the claim at a concrete state): the state after a right turn from the
initial state, completed by the update 200 ticks later, is Idle and faces WEST,
for which `initiate_move_forward` steps by (0, +1); its `dirAngle` is
`M_PI / 2 = ((4 - 3) mod 4) * M_PI / 2`, and the cosine of that angle is not 0,
because `M_PI` is a double below π: the facing vector is not equal to the grid
step. -/
theorem facing_vector_not_exact :
    ((turn_right_done init_state 0 200).isMoving = 0 ∧
      (turn_right_done init_state 0 200).isRotating = 0 ∧
      (turn_right_done init_state 0 200).gridDir = .WEST ∧
      (turn_right_done init_state 0 200).dirAngle = M_PI / 2 ∧
      forward_target (turn_right_done init_state 0 200) =
        ((turn_right_done init_state 0 200).gridX, (turn_right_done init_state 0 200).gridY + 1)) ∧
    ¬ ((turn_right_done init_state 0 200).dirAngle =
        facing_angle (turn_right_done init_state 0 200).gridDir ∧
      Real.cos (((turn_right_done init_state 0 200).dirAngle : ℚ) : ℝ) =
        (((forward_target (turn_right_done init_state 0 200)).1 -
          (turn_right_done init_state 0 200).gridX : Int) : ℝ) ∧
      Real.sin (((turn_right_done init_state 0 200).dirAngle : ℚ) : ℝ) =
        (((forward_target (turn_right_done init_state 0 200)).2 -
          (turn_right_done init_state 0 200).gridY : Int) : ℝ)) := by
  have hdir : (turn_right_done init_state 0 200).dirAngle = M_PI / 2 := by decide!
  have htgt : forward_target (turn_right_done init_state 0 200) =
      ((turn_right_done init_state 0 200).gridX, (turn_right_done init_state 0 200).gridY + 1) := by
    decide!
  refine ⟨⟨by decide!, by decide!, by decide!, hdir, htgt⟩, ?_⟩
  rintro ⟨_, hcos, _⟩
  rw [hdir, htgt] at hcos
  have hpos := cos_half_M_PI_pos
  rw [hcos] at hpos
  simp at hpos

/-- C18, amended: in every state with `isRotating` clear that is reached from
a state in which the angle is the angle of the facing (the initial state:
NORTH, angle 0) by any sequence of requests and updates,
`dirAngle = ((4 - gridDir) mod 4) * M_PI / 2`; the facing vector
`(cos dirAngle, sin dirAngle)` differs from the grid step
`initiate_move_forward` applies for `gridDir` by at most `3/2 * (π - M_PI)` in
each coordinate, where `1.22e-16 < π - M_PI < 1.23e-16` for the double `M_PI`
(so the difference is below `1.85e-16`); for NORTH the two are equal. -/
theorem facing_angle_consistent (m : WorldMap) (s0 s : State) (acts : List Action)
    (h0rot : s0.isRotating = 0) (h0 : s0.dirAngle = facing_angle s0.gridDir)
    (hrun : run m s0 acts = some s) (hrot : s.isRotating = 0) :
    s.dirAngle = (((4 - s.gridDir.val) % 4 : Nat) : ℚ) * (M_PI / 2) ∧
    |Real.cos ((s.dirAngle : ℚ) : ℝ) - (((forward_target s).1 - s.gridX : Int) : ℝ)| ≤
      3 / 2 * (Real.pi - ((M_PI : ℚ) : ℝ)) ∧
    |Real.sin ((s.dirAngle : ℚ) : ℝ) - (((forward_target s).2 - s.gridY : Int) : ℝ)| ≤
      3 / 2 * (Real.pi - ((M_PI : ℚ) : ℝ)) ∧
    (1.22e-16 < Real.pi - ((M_PI : ℚ) : ℝ) ∧ Real.pi - ((M_PI : ℚ) : ℝ) < 1.23e-16 ∧
      3 / 2 * (Real.pi - ((M_PI : ℚ) : ℝ)) < 1.85e-16) ∧
    (s.gridDir = .NORTH →
      Real.cos ((s.dirAngle : ℚ) : ℝ) = 1 ∧ Real.sin ((s.dirAngle : ℚ) : ℝ) = 0) := by
  have hinv : facing_inv s :=
    run_invariant facing_inv m (facing_inv_step m) acts s0 s
      ⟨fun _ => h0, fun hc => absurd h0rot hc⟩ hrun
  have hang : s.dirAngle = facing_angle s.gridDir := hinv.1 hrot
  obtain ⟨hN, hE, hS, hW⟩ := facing_vector_close
  obtain ⟨hlt, hlow, hsmall⟩ := M_PI_lt_pi
  have hd0 : 0 ≤ 3 / 2 * (Real.pi - ((M_PI : ℚ) : ℝ)) := by linarith
  have hbound : 3 / 2 * (Real.pi - ((M_PI : ℚ) : ℝ)) < 1.85e-16 := by
    norm_num at hsmall ⊢
    linarith
  refine ⟨hang, ?_, ?_, ⟨hlow, hsmall, hbound⟩, ?_⟩
  · rw [hang]
    cases hd : s.gridDir <;> simp only [forward_target, hd]
    · rw [hN.1]; simpa using hd0
    · simpa using hE.1
    · have := hS.1
      simpa using this
    · simpa using hW.1
  · rw [hang]
    cases hd : s.gridDir <;> simp only [forward_target, hd]
    · rw [hN.2]; simpa using hd0
    · have := hE.2
      simpa using this
    · simpa using hS.2
    · have := hW.2
      simpa using this
  · intro hd
    rw [hang, hd]
    exact hN

/-- C18, amended, from the initial state: after a right turn at tick 0 and the
update at tick 200 the state faces WEST at the angle `M_PI / 2`. -/
theorem facing_angle_consistent_witness :
    run (fun _ _ => ⟨0, 0⟩) init_state [.turn_right 0, .update_rotation 200] =
      some (update_rotation (initiate_turn_right init_state 0) 200) ∧
    (update_rotation (initiate_turn_right init_state 0) 200).dirAngle =
      (((4 - (update_rotation (initiate_turn_right init_state 0) 200).gridDir.val) % 4 : Nat) : ℚ) *
        (M_PI / 2) :=
  ⟨rfl,
   (facing_angle_consistent (fun _ _ => ⟨0, 0⟩) init_state
      (update_rotation (initiate_turn_right init_state 0) 200)
      [.turn_right 0, .update_rotation 200] rfl (by decide!) rfl (by decide!)).1⟩

end Goldbox
